import Mathlib

/-!
Verification of the BlockOPs conversational-configuration backend
(`orbit_ai_backend`): a shallow embedding in Lean 4 of the slot-filling
state machine (`core/conversation.py`), the value extractors
(`utils/validators.py`), the preset catalog (`utils/defaults.py`), the
session/step model (`models/conversation.py`) and the config assembler
(`core/config_builder.py`, `models/orbit_config.py`).

Python strings are modelled as Lean `String` values; every Python string
operation used by the code — `str.lower`, `str.strip`, substring
containment (`in`), `str.split`, `str.title`, `str.replace` — is defined
here over the underlying `List Char`, restricted to its ASCII behaviour
(the code's keyword tables and address formats are all ASCII).  Regular
expressions are modelled by hand-rolled scanners that follow the
leftmost-match/backtracking semantics of the specific patterns used by
the code.  Fallible paths (Python exceptions, pydantic validation
errors) are modelled with `Option`.  Floating point appears only in
`get_progress`'s percentage; at every reachable input (completed count
0..10 out of 10) CPython's `int((c/10)*100)` coincides with exact
integer arithmetic `100*c/10`, so it is modelled with `Nat` division.
-/

namespace BlockOps

/-! ## Python character/string primitives -/

/-- Whitespace characters removed by Python's `str.strip()` (ASCII). -/
def wsChars : List Char := [' ', '\t', '\n', '\r', Char.ofNat 11, Char.ofNat 12]

def isWS (c : Char) : Bool := wsChars.contains c

/-- ASCII uppercase/lowercase letter pairs, used to model `str.lower()`. -/
def upperLowerPairs : List (Char × Char) :=
  [('A','a'), ('B','b'), ('C','c'), ('D','d'), ('E','e'), ('F','f'), ('G','g'),
   ('H','h'), ('I','i'), ('J','j'), ('K','k'), ('L','l'), ('M','m'), ('N','n'),
   ('O','o'), ('P','p'), ('Q','q'), ('R','r'), ('S','s'), ('T','t'), ('U','u'),
   ('V','v'), ('W','w'), ('X','x'), ('Y','y'), ('Z','z')]

/-- `str.lower()` on a single character (ASCII behaviour). -/
def lowerChar (c : Char) : Char :=
  (((upperLowerPairs.find? (fun p => p.1 = c)).map (fun p => p.2)).getD c)

/-- `str.upper()` on a single character (ASCII behaviour), used by `title()`. -/
def upperChar (c : Char) : Char :=
  (((upperLowerPairs.find? (fun p => p.2 = c)).map (fun p => p.1)).getD c)

def pyLowerList (l : List Char) : List Char := l.map lowerChar

def pyLower (s : String) : String := ⟨pyLowerList s.data⟩

/-- Python `str.strip()`: remove leading and trailing whitespace. -/
def pyStripList (l : List Char) : List Char :=
  ((l.dropWhile isWS).reverse.dropWhile isWS).reverse

def pyStrip (s : String) : String := ⟨pyStripList s.data⟩

/-- `message.lower().strip()`, the normalisation applied throughout
`conversation.py`. -/
def pls (s : String) : String := pyStrip (pyLower s)

/-- Python substring containment `needle in hay` on char lists. -/
def containsSubList (hay needle : List Char) : Bool :=
  needle.isPrefixOf hay ||
    match hay with
    | [] => false
    | _ :: t => containsSubList t needle

/-- Python substring containment `needle in hay`. -/
def containsSub (hay needle : String) : Bool := containsSubList hay.data needle.data

/-- ASCII lowercase letters. -/
def lowerLetters : List Char :=
  ['a','b','c','d','e','f','g','h','i','j','k','l','m',
   'n','o','p','q','r','s','t','u','v','w','x','y','z']

/-- ASCII uppercase letters. -/
def upperLetters : List Char :=
  ['A','B','C','D','E','F','G','H','I','J','K','L','M',
   'N','O','P','Q','R','S','T','U','V','W','X','Y','Z']

def digitChars : List Char := ['0','1','2','3','4','5','6','7','8','9']

/-- Characters matched by the regex class `[a-fA-F0-9]`. -/
def hexChars : List Char :=
  digitChars ++ ['a','b','c','d','e','f'] ++ ['A','B','C','D','E','F']

def isDigitChar (c : Char) : Bool := digitChars.contains c

def isLetterChar (c : Char) : Bool := lowerLetters.contains c || upperLetters.contains c

def isAlnumChar (c : Char) : Bool := isLetterChar c || isDigitChar c

def isHexChar (c : Char) : Bool := hexChars.contains c

/-- Characters matched by the regex class `\w` (ASCII). -/
def isWordChar (c : Char) : Bool := isAlnumChar c || c = '_'

/-- The apostrophe character (several keyword strings contain it). -/
def sq : Char := Char.ofNat 39

/-- Numeric value of a list of decimal digit characters (Python `int(...)`
on a digit-run captured by a regex). -/
def digitsToNat (l : List Char) : Nat :=
  l.foldl (fun a c => a * 10 + (c.toNat - 48)) 0

/-- Python `str.split()` (split on whitespace runs, dropping empties); each
iteration consumes at least one character, so `l.length` fuel suffices. -/
def splitWsGo : Nat → List Char → List (List Char)
  | 0, _ => []
  | fuel + 1, l =>
    match l.dropWhile isWS with
    | [] => []
    | c :: t =>
      let w := (c :: t).takeWhile (fun c => !isWS c)
      w :: splitWsGo fuel ((c :: t).dropWhile (fun c => !isWS c))

def splitWsList (l : List Char) : List (List Char) := splitWsGo l.length l

/-- Python `" ".join(parts)`. -/
def joinSpace : List (List Char) → List Char
  | [] => []
  | [w] => w
  | w :: t => w ++ ' ' :: joinSpace t

/-- Python `str.title()`: a letter is uppercased when the previous character
is not a letter, lowercased otherwise (ASCII behaviour). -/
def pyTitleGo : Bool → List Char → List Char
  | _, [] => []
  | prevAlpha, c :: t =>
    (if isLetterChar c then (if prevAlpha then lowerChar c else upperChar c) else c)
      :: pyTitleGo (isLetterChar c) t

def pyTitleList (l : List Char) : List Char := pyTitleGo false l

def pyTitle (s : String) : String := ⟨pyTitleList s.data⟩

/-- Python `str.replace(a, b)` for single characters. -/
def pyReplaceChar (a b : Char) (s : String) : String :=
  ⟨s.data.map (fun c => if c = a then b else c)⟩

/-! ## Step and session model (`models/conversation.py`) -/

/-- `ConfigStep`: the configuration slots plus the terminal `complete`. -/
inductive ConfigStep where
  | use_case | chain_name | parent_chain | data_availability | validators
  | owner_address | native_token | block_time | gas_limit | challenge_period
  | complete
deriving DecidableEq, Repr, Fintype

/-- The `.value` string of each step (the `str`-enum payload). -/
def ConfigStep.value : ConfigStep → String
  | .use_case => "use_case"
  | .chain_name => "chain_name"
  | .parent_chain => "parent_chain"
  | .data_availability => "data_availability"
  | .validators => "validators"
  | .owner_address => "owner_address"
  | .native_token => "native_token"
  | .block_time => "block_time"
  | .gas_limit => "gas_limit"
  | .challenge_period => "challenge_period"
  | .complete => "complete"

/-- `CONFIG_STEP_ORDER`. -/
def CONFIG_STEP_ORDER : List ConfigStep :=
  [.use_case, .chain_name, .parent_chain, .data_availability, .validators,
   .owner_address, .native_token, .block_time, .gas_limit, .challenge_period,
   .complete]

/-- `ConversationPhase`. -/
inductive ConversationPhase where
  | greeting | discovery | configuration | review | deploying | deployed
deriving DecidableEq, Repr

/-! ## Preset catalog (`utils/defaults.py`) -/

/-- The `defaults` bundle inside a use-case preset. -/
structure PresetDefaults where
  data_availability : String
  block_time : Nat
  gas_limit : Nat
  validators : Nat
  challenge_period_days : Nat
deriving DecidableEq, Repr

/-- A use-case preset (`USE_CASE_PRESETS` entries). -/
structure Preset where
  id : String
  name : String
  description : String
  icon : String
  defaults : PresetDefaults
deriving DecidableEq, Repr

def gamingPreset : Preset :=
  { id := "gaming", name := "Gaming",
    description := "Optimized for fast transactions and low latency gaming",
    icon := "🎮",
    defaults := { data_availability := "anytrust", block_time := 1,
                  gas_limit := 50000000, validators := 3,
                  challenge_period_days := 7 } }

def defiPreset : Preset :=
  { id := "defi", name := "DeFi",
    description := "Maximum security for financial applications",
    icon := "💰",
    defaults := { data_availability := "rollup", block_time := 2,
                  gas_limit := 30000000, validators := 5,
                  challenge_period_days := 7 } }

def enterprisePreset : Preset :=
  { id := "enterprise", name := "Enterprise",
    description := "Private chain for business applications",
    icon := "🏢",
    defaults := { data_availability := "anytrust", block_time := 3,
                  gas_limit := 30000000, validators := 5,
                  challenge_period_days := 14 } }

def nftPreset : Preset :=
  { id := "nft", name := "NFT Platform",
    description := "Optimized for NFT minting and trading",
    icon := "🖼️",
    defaults := { data_availability := "anytrust", block_time := 2,
                  gas_limit := 40000000, validators := 3,
                  challenge_period_days := 7 } }

def generalPreset : Preset :=
  { id := "general", name := "General Purpose",
    description := "Balanced configuration for mixed use cases",
    icon := "⚡",
    defaults := { data_availability := "anytrust", block_time := 2,
                  gas_limit := 30000000, validators := 3,
                  challenge_period_days := 7 } }

/-- `USE_CASE_PRESETS`, keyed by use-case id. -/
def USE_CASE_PRESETS : List (String × Preset) :=
  [("gaming", gamingPreset), ("defi", defiPreset), ("enterprise", enterprisePreset),
   ("nft", nftPreset), ("general", generalPreset)]

/-- `get_preset(use_case)`: lookup of `use_case.lower()` with fallback to the
`general` preset. -/
def get_preset (use_case : String) : Preset :=
  (((USE_CASE_PRESETS.find? (fun p => p.1 = pyLower use_case)).map
      (fun p => p.2)).getD generalPreset)

/-! ## Collected parameter values

`session.collected_params` is a string-keyed dict holding heterogeneous
values: slot strings, slot numbers, the native-token dict, a list of
validator addresses, plus the bookkeeping entries `_preset` (a preset
record) and `_defaults` (a list of slot keys). -/

inductive Value where
  | vStr : String → Value
  | vNat : Nat → Value
  | vTok : String → String → Nat → Value
  | vList : List String → Value
  | vPreset : Preset → Value
deriving DecidableEq, Repr

/-- Dict lookup `params.get(k)`. -/
def getParam : List (String × Value) → String → Option Value
  | [], _ => none
  | (k', v') :: t, k => if k' = k then some v' else getParam t k

/-- Dict assignment `params[k] = v` (replace in place or append). -/
def setParam : List (String × Value) → String → Value → List (String × Value)
  | [], k, v => [(k, v)]
  | (k', v') :: t, k, v =>
    if k' = k then (k, v) :: t else (k', v') :: setParam t k v

/-- `params.get("_defaults", [])`. -/
def getDefaults (ps : List (String × Value)) : List String :=
  match getParam ps "_defaults" with
  | some (.vList l) => l
  | _ => []

/-- `params.get("_preset", {})`, exposing the nested `defaults` lookups with
the hard-coded fallbacks used at each call site. -/
def getPresetParam (ps : List (String × Value)) : Option Preset :=
  match getParam ps "_preset" with
  | some (.vPreset p) => some p
  | _ => none

/-- `params.get("_preset", {}).get("defaults", {}).get("data_availability", "anytrust")`. -/
def presetDA (ps : List (String × Value)) : String :=
  match getPresetParam ps with
  | some p => p.defaults.data_availability
  | none => "anytrust"

/-- `...get("validators", 3)`. -/
def presetValidators (ps : List (String × Value)) : Nat :=
  match getPresetParam ps with
  | some p => p.defaults.validators
  | none => 3

/-- `...get("block_time", 2)`. -/
def presetBlockTime (ps : List (String × Value)) : Nat :=
  match getPresetParam ps with
  | some p => p.defaults.block_time
  | none => 2

/-- `...get("gas_limit", 30_000_000)`. -/
def presetGasLimit (ps : List (String × Value)) : Nat :=
  match getPresetParam ps with
  | some p => p.defaults.gas_limit
  | none => 30000000

/-! ## Session state -/

/-- A transcript message: role and content (ids/timestamps are not modelled). -/
structure Msg where
  role : String
  content : String
deriving DecidableEq, Repr

/-- `ConversationSession` (the fields the state machine reads and writes;
timestamps and deployment fields are not modelled). -/
structure Session where
  wallet_address : Option String
  phase : ConversationPhase
  current_step : ConfigStep
  messages : List Msg
  params : List (String × Value)
deriving DecidableEq, Repr

/-- A fresh session positioned at a given step (empty params, no wallet). -/
def sessionAt (st : ConfigStep) : Session :=
  { wallet_address := none, phase := .greeting, current_step := st,
    messages := [], params := [] }

/-- `ConversationSession.advance_step`. -/
def Session.advance_step (s : Session) : Session :=
  let i := CONFIG_STEP_ORDER.indexOf s.current_step
  if i < CONFIG_STEP_ORDER.length - 1 then
    { s with current_step := CONFIG_STEP_ORDER.getD (i + 1) .complete }
  else s

/-- `ConversationSession.go_back_step`: returns whether it moved, and the
updated session. -/
def Session.go_back_step (s : Session) : Bool × Session :=
  let i := CONFIG_STEP_ORDER.indexOf s.current_step
  if 0 < i then
    (true, { s with current_step := CONFIG_STEP_ORDER.getD (i - 1) .complete })
  else (false, s)

/-- `ConfigProgress`. -/
structure ConfigProgress where
  completed : List String
  remaining : List String
  percentage : Nat
deriving DecidableEq, Repr

/-- The loop body of `get_progress`, parameterised by the current step only
(the function reads nothing else).  The percentage `int((len/total)*100)` is
modelled with exact `Nat` arithmetic, which coincides with CPython's float
computation at all eleven reachable values of `len(completed)`. -/
def get_progress_core (step : ConfigStep) : ConfigProgress :=
  let idx := CONFIG_STEP_ORDER.indexOf step
  let nonTerminal := (CONFIG_STEP_ORDER.enum.filter (fun p => p.2 ≠ ConfigStep.complete))
  let completed := (nonTerminal.filter (fun p => p.1 < idx)).map (fun p => p.2.value)
  let remaining := (nonTerminal.filter (fun p => ¬ p.1 < idx)).map (fun p => p.2.value)
  let total := CONFIG_STEP_ORDER.length - 1
  { completed := completed, remaining := remaining,
    percentage := if 0 < total then completed.length * 100 / total else 0 }

/-- `ConversationSession.get_progress`. -/
def Session.get_progress (s : Session) : ConfigProgress :=
  get_progress_core s.current_step

/-! ## Validators and parsers (`utils/validators.py`) -/

/-- `is_valid_eth_address`: `re.match(r"^0x[a-fA-F0-9]{40}$", address)` plus
the empty-string guard.  (CPython's `$` would also admit one trailing
newline; that corner is not modelled — no call site depends on it.) -/
def is_valid_eth_address (s : String) : Bool :=
  match s.data with
  | '0' :: 'x' :: rest => rest.length = 40 && rest.all isHexChar
  | _ => false

/-- `normalize_eth_address`; the two `raise ValueError` paths are `none`. -/
def normalize_eth_address (address : String) : Option String :=
  if address = "" then none
  else
    let address :=
      if ("0x".data).isPrefixOf address.data then address
      else ⟨'0' :: 'x' :: address.data⟩
    if is_valid_eth_address address then some (pyLower address) else none

/-- `validate_validators_count`. -/
def validate_validators_count (count : Nat) : Bool := 1 ≤ count && count ≤ 20

/-- Length bound for `dropWhile`, used in termination arguments. -/
def dropWhileLenLe (p : Char → Bool) (xs : List Char) :
    (xs.dropWhile p).length ≤ xs.length := by
  induction xs with
  | nil => simp
  | cons a t ih =>
    simp only [List.dropWhile_cons]
    split
    · simp only [List.length_cons]
      omega
    · simp

/-- Scanner for `re.findall(r"\b(\d+)\b", text)`: emits the maximal decimal
digit runs both of whose neighbours are absent or non-word characters
(digits are word characters, so a run flanked by a letter or `_` cannot
satisfy the boundary, even after backtracking). `prevWord` records whether
the previously scanned character was a word character. -/
def findNumRunsGo : Nat → Bool → List Char → List (List Char)
  | 0, _, _ => []
  | fuel + 1, prevWord, l =>
    match l with
    | [] => []
    | c :: rest =>
      if isDigitChar c && !prevWord then
        let run := c :: rest.takeWhile isDigitChar
        let after := rest.dropWhile isDigitChar
        let ok := match after with | [] => true | a :: _ => !isWordChar a
        (if ok then [run] else []) ++ findNumRunsGo fuel true after
      else findNumRunsGo fuel (isWordChar c) rest

def findNumRuns (prevWord : Bool) (l : List Char) : List (List Char) :=
  findNumRunsGo l.length prevWord l

/-- `word_to_num` in `parse_validator_count_from_text`. -/
def word_to_num : List (String × Nat) :=
  [("one", 1), ("two", 2), ("three", 3), ("four", 4), ("five", 5),
   ("six", 6), ("seven", 7), ("eight", 8), ("nine", 9), ("ten", 10)]

/-- `parse_validator_count_from_text`.  Note that the word lookup uses
substring containment (`if word in text`), so e.g. `"five"` matches inside
`"twenty five"`. -/
def parse_validator_count_from_text (text : String) : Option Nat :=
  let t := pyLower text
  let wordLookup : Option Nat :=
    ((word_to_num.find? (fun p => containsSub t p.1)).map (fun p => p.2))
  match findNumRuns false t.data with
  | run :: _ =>
    let count := digitsToNat run
    if validate_validators_count count then some count else wordLookup
  | [] => wordLookup

/-- Scanner for `re.search(r"(\d+)\s*<tail>", text)` where `<tail>` is a
literal that begins with a non-digit, non-whitespace character: at each
position, a match requires the whole maximal digit run there followed by
optional whitespace and then the tail (backtracking the greedy `\d+` or
`\s*` cannot help, because the characters they would give back are digits
resp. whitespace and cannot match the tail's head). Returns the first
(leftmost) captured number. -/
def searchNumThen (tail : List Char) (l : List Char) : Option Nat :=
  match l with
  | [] => none
  | c :: rest =>
    if isDigitChar c then
      let run := (c :: rest).takeWhile isDigitChar
      let after := (c :: rest).dropWhile isDigitChar
      if tail.isPrefixOf (after.dropWhile isWS) then some (digitsToNat run)
      else searchNumThen tail rest
    else searchNumThen tail rest

/-- `parse_block_time_from_text`: the two regex patterns
`(\d+)\s*s(?:ec(?:ond)?s?)?` and `(\d+)\s*second` (per pattern, only the
leftmost match is examined; an out-of-range capture falls through to the
next pattern), then the keyword heuristics. -/
def parse_block_time_from_text (text : String) : Option Nat :=
  let t := pyLower text
  let keywords : Option Nat :=
    if containsSub t "fast" || containsSub t "quick" then some 1
    else if containsSub t "slow" then some 3
    else none
  let second : Option Nat :=
    match searchNumThen ("second".data) t.data with
    | some n => if 1 ≤ n && n ≤ 30 then some n else keywords
    | none => keywords
  match searchNumThen ['s'] t.data with
  | some n => if 1 ≤ n && n ≤ 30 then some n else second
  | none => second

/-- The `use_cases` keyword table in `parse_use_case_from_text`. -/
def use_cases_kw : List (String × List String) :=
  [("gaming", ["gaming", "game", "player", "esports", "nft game", "play to earn", "p2e"]),
   ("defi", ["defi", "finance", "trading", "exchange", "lending", "yield", "swap", "dex"]),
   ("enterprise", ["enterprise", "private", "business", "corporate", "internal"]),
   ("nft", ["nft", "collectible", "art", "marketplace", "token"]),
   ("general", ["general", "basic", "simple"])]

/-- `parse_use_case_from_text`. -/
def parse_use_case_from_text (text : String) : Option String :=
  let t := pyLower text
  ((use_cases_kw.find? (fun p => p.2.any (fun kw => containsSub t kw))).map
    (fun p => p.1))

/-- `wallet_phrases` in `extract_wallet_intent`. -/
def wallet_phrases : List String :=
  ["my wallet", "connected wallet", "use my", "my address",
   "current wallet", "this wallet", "same wallet"]

/-- `extract_wallet_intent`. -/
def extract_wallet_intent (text : String) : Bool :=
  wallet_phrases.any (fun p => containsSub (pyLower text) p)

/-! ### `extract_chain_name_from_text`

The two `re.IGNORECASE` patterns are modelled with explicit scanners that
follow the engine's leftmost-match and backtracking behaviour. -/

def isQuoteChar (c : Char) : Bool := c = '"' || c = sq

/-- The regex class `[a-zA-Z0-9\s]`. -/
def isAlnumWsChar (c : Char) : Bool := isAlnumChar c || isWS c

/-- Case-insensitive literal prefix test (`pat` given in lowercase). -/
def ciPrefix (pat : String) (l : List Char) : Bool :=
  pat.data.isPrefixOf (pyLowerList l)

/-- The `name\s+is` alternative of pattern 1; returns the matched length. -/
def nameIsTrigger (l : List Char) : Option Nat :=
  if ciPrefix "name" l then
    let r := l.drop 4
    let k := (r.takeWhile isWS).length
    if 1 ≤ k && ciPrefix "is" (r.drop k) then some (4 + k + 2) else none
  else none

/-- `\s+["']?([a-zA-Z0-9\s]+)["']?` after a matched trigger: the greedy
`\s+` takes `j` whitespace characters (largest first), the optional quote is
tried greedily, and the group is the maximal nonempty `[a-zA-Z0-9\s]` run;
on failure `\s+` backtracks one character at a time. -/
def pat1TryJ (r : List Char) : Nat → Option (List Char)
  | 0 => none
  | j + 1 =>
    let rem := r.drop (j + 1)
    let viaQuote : Option (List Char) :=
      match rem with
      | c :: t =>
        if isQuoteChar c then
          let g := t.takeWhile isAlnumWsChar
          if g.isEmpty then none else some g
        else none
      | [] => none
    match viaQuote with
    | some g => some g
    | none =>
      let g := rem.takeWhile isAlnumWsChar
      if g.isEmpty then pat1TryJ r j else some g

def pat1Tail (r : List Char) : Option (List Char) :=
  pat1TryJ r ((r.takeWhile isWS).length)

/-- Pattern 1 at one position: the alternatives `called|named|name\s+is|name:`
in order, each followed by the tail. -/
def matchPat1At (l : List Char) : Option (List Char) :=
  (if ciPrefix "called" l then pat1Tail (l.drop 6) else none) <|>
  (if ciPrefix "named" l then pat1Tail (l.drop 5) else none) <|>
  ((nameIsTrigger l).bind (fun n => pat1Tail (l.drop n))) <|>
  (if ciPrefix "name:" l then pat1Tail (l.drop 5) else none)

/-- `re.search` for pattern 1: leftmost position wins. -/
def pat1Search : List Char → Option (List Char)
  | [] => none
  | c :: t => matchPat1At (c :: t) <|> pat1Search t

/-- One `[A-Z][a-zA-Z0-9]+` word (with `re.IGNORECASE`, a letter followed by
one or more alphanumerics); returns the word and the remainder. -/
def pat2Word (l : List Char) : Option (List Char × List Char) :=
  match l with
  | c :: t =>
    if isLetterChar c then
      let g := t.takeWhile isAlnumChar
      if g.isEmpty then none else some (c :: g, t.drop g.length)
    else none
  | [] => none

/-- The greedy `(?:\s+[A-Z][a-zA-Z0-9]+)*` continuation of pattern 2; each
iteration consumes at least one character, so `l.length` fuel suffices. -/
def pat2More (fuel : Nat) (acc : List Char) (l : List Char) : List Char :=
  match fuel with
  | 0 => acc
  | fuel + 1 =>
    let k := (l.takeWhile isWS).length
    if 0 < k then
      match pat2Word (l.drop k) with
      | some (w, rest) => pat2More fuel (acc ++ l.take k ++ w) rest
      | none => acc
    else acc

/-- Pattern 2, anchored at the start of the text. -/
def pat2Match (l : List Char) : Option (List Char) :=
  match pat2Word l with
  | some (w, rest) => some (pat2More rest.length w rest)
  | none => none

/-- `extract_chain_name_from_text`. -/
def extract_chain_name_from_text (text : String) : Option String :=
  let tryName (g : Option (List Char)) : Option String :=
    match g with
    | some gl =>
      let name := pyStripList gl
      if 2 ≤ name.length && name.length ≤ 50 then some ⟨name⟩ else none
    | none => none
  match tryName (pat1Search text.data) with
  | some n => some n
  | none => tryName (pat2Match text.data)

/-! ## Generators (`utils/defaults.py`) -/

def hexDigitChar (d : Nat) : Char :=
  ((digitChars ++ ['a','b','c','d','e','f']).getD d '0')

/-- Python `hex(n)[2:]` for `n ≥ 1` (lowercase hex digits, no prefix),
written with structural fuel so that it reduces definitionally. -/
def natToHexAux : Nat → Nat → List Char
  | 0, _ => []
  | fuel + 1, n => if n = 0 then [] else natToHexAux fuel (n / 16) ++ [hexDigitChar (n % 16)]

def natToHexChars (n : Nat) : List Char := natToHexAux n n

/-- `generate_validators(count)`: placeholder addresses
`("0x" + hex(i+1)[2:] * 40)[:42]`. -/
def generate_validators (count : Nat) : List String :=
  (List.range count).map (fun i =>
    ⟨('0' :: 'x' :: (List.replicate 40 (natToHexChars (i + 1))).flatten).take 42⟩)

/-- `clean_name` step shared by the URL generators:
`chain_name.lower().replace(" ", "-").replace("_", "-")`. -/
def cleanUrlName (chain_name : String) : String :=
  ⟨(pyLowerList chain_name.data).map
    (fun c => if c = ' ' then '-' else if c = '_' then '-' else c)⟩

/-- `generate_sequencer_url`. -/
def generate_sequencer_url (chain_name : String) : String :=
  "https://sequencer-" ++ cleanUrlName chain_name ++ ".example.com"

/-- `DEFAULT_NATIVE_TOKEN`. -/
def DEFAULT_NATIVE_TOKEN : Value := .vTok "Ether" "ETH" 18

/-! ## Conversation manager (`core/conversation.py`) -/

/-- `"what's up"` (contains an apostrophe). -/
def whatsUpApos : String := ⟨['w','h','a','t', sq, 's', ' ', 'u', 'p']⟩

/-- `"how's it going"`. -/
def howsItGoingApos : String :=
  ⟨['h','o','w', sq, 's', ' ', 'i','t',' ','g','o','i','n','g']⟩

/-- `"that's fine"`. -/
def thatsFineApos : String := ⟨['t','h','a','t', sq, 's', ' ', 'f','i','n','e']⟩

/-- `casual_patterns` in `_is_casual_message`. -/
def casual_patterns : List String :=
  ["hi", "hello", "hey", "hola", "sup", "yo",
   whatsUpApos, "whats up", "wassup",
   "good morning", "good afternoon", "good evening",
   "how are you", howsItGoingApos, "how are things",
   "thanks", "thank you", "thx",
   "ok", "okay", "cool", "nice", "great", "awesome",
   "hmm", "um", "uh", "err",
   "help", "what", "huh", "?",
   "test", "testing", "asdf", "aaa", "bbb"]

/-- `greeting_starters` in `_is_casual_message`. -/
def greeting_starters : List String := ["hi ", "hey ", "hello ", "yo "]

/-- The body of `_is_casual_message` as a function of the lowered/stripped
message (the only input the checks read). -/
def isCasualLower (L : String) : Bool :=
  L ∈ casual_patterns || L.data.length ≤ 2
    || greeting_starters.any (fun g => g.data.isPrefixOf L.data)

/-- `ConversationManager._is_casual_message`. -/
def is_casual_message (m : String) : Bool := isCasualLower (pls m)

/-- `intent_signals` in `_detect_intent_step` (dict insertion order). -/
def intent_signals : List (ConfigStep × List String) :=
  [(.parent_chain,
    ["mainnet", "testnet", "sepolia", "arbitrum one",
     "arbitrum nova", "production", "main net"]),
   (.data_availability,
    ["anytrust", "any trust", "rollup", "roll up", "roll-up",
     "data availability", "full rollup", "full security",
     "ethereum da", "dac committee"]),
   (.validators, ["validator"]),
   (.owner_address, ["0x", "my wallet", "connected wallet", "my address"]),
   (.native_token, ["custom token", "native token", "gas token"])]

/-- `ConversationManager._detect_intent_step`, as a function of the current
step and the message (the only session data it reads). -/
def detect_intent_step_core (step : ConfigStep) (m : String) : Option ConfigStep :=
  if is_casual_message m then none
  else
    let msgLower := pls m
    (((intent_signals.find? (fun p =>
        (p.1 != step) && p.2.any (fun kw => containsSub msgLower kw))).map
      (fun p => p.1)))

def Session.detect_intent_step (s : Session) (m : String) : Option ConfigStep :=
  detect_intent_step_core s.current_step m

/-- `use_case_keywords` in the `USE_CASE` branch of `_extract_value`. -/
def use_case_keywords : List String :=
  ["app", "chain", "project", "build", "create", "making", "platform"]

/-- `config_keywords` in the `CHAIN_NAME` branch of `_extract_value`. -/
def config_keywords : List String :=
  ["mainnet", "testnet", "sepolia", "nova", "arbitrum",
   "rollup", "anytrust", "trust",
   "validator", "eth", "ether", "custom token",
   "wallet", "address", "0x",
   "second", "fast", "slow",
   "million", "gas",
   "days", "week", "challenge",
   "production", "deploy"]

/-- `skip_words` in the `CHAIN_NAME` branch. -/
def skip_words : List String := ["the", "a", "an", "is", "be", "it"]

/-- The affirmation list in the `PARENT_CHAIN` branch. -/
def parent_yes : List String := ["yes", "yeah", "ok", "sure", "sounds good", "yep"]

/-- `rollup_patterns` in the `DATA_AVAILABILITY` branch. -/
def rollup_patterns : List String :=
  ["rollup", "roll up", "roll-up", "ethereum da", "full rollup", "full security"]

/-- `anytrust_patterns` in the `DATA_AVAILABILITY` branch. -/
def anytrust_patterns : List String :=
  ["anytrust", "any trust", "any-trust", "cheaper", "fast", "dac"]

/-- The affirmation list in the `DATA_AVAILABILITY` branch. -/
def da_yes : List String :=
  ["yes", "yeah", "ok", "sure", "sounds good", "yep", thatsFineApos, "works for me"]

/-- `default_mapping` built in the `USE_CASE` branch (dict insertion order). -/
def default_mapping (p : Preset) : List (String × Value) :=
  [("data_availability", .vStr p.defaults.data_availability),
   ("block_time", .vNat p.defaults.block_time),
   ("gas_limit", .vNat p.defaults.gas_limit),
   ("validators", .vNat p.defaults.validators),
   ("challenge_period", .vNat p.defaults.challenge_period_days),
   ("native_token", .vTok "Ether" "ETH" 18),
   ("parent_chain", .vStr "arbitrum-sepolia")]

/-- `list(default_mapping.keys())`, stored into `_defaults`. -/
def defaultMappingKeys : List String :=
  ["data_availability", "block_time", "gas_limit", "validators",
   "challenge_period", "native_token", "parent_chain"]

/-- The pre-fill loop: `for key, value in default_mapping.items(): if value
is not None and key not in session.collected_params: ...` (every value in the
mapping is non-`None`, since all preset bundles are complete). -/
def prefillDefaults (ps : List (String × Value)) (dm : List (String × Value)) :
    List (String × Value) :=
  dm.foldl (fun acc kv =>
    if (getParam acc kv.1).isNone then setParam acc kv.1 kv.2 else acc) ps

/-- `re.search(r"0x[a-fA-F0-9]{40}", message)` at one position. -/
def addrAt (l : List Char) : Option (List Char) :=
  match l with
  | '0' :: 'x' :: tl =>
    let h := tl.take 40
    if h.length = 40 && h.all isHexChar then some ('0' :: 'x' :: h) else none
  | _ => none

/-- `re.search(r"0x[a-fA-F0-9]{40}", message)`: leftmost match. -/
def findAddress : List Char → Option (List Char)
  | [] => none
  | c :: rest => (addrAt (c :: rest)) <|> findAddress rest

/-- `ConversationManager._extract_value`, as a function of the session data
it reads (`current_step`, `collected_params`, `wallet_address`) and the
message.  It returns the extracted value (or none) together with the
possibly-mutated params (only the `USE_CASE` branch mutates them). -/
def extract_value_core (step : ConfigStep) (ps : List (String × Value))
    (wallet : Option String) (m : String) : Option Value × List (String × Value) :=
  let msgLower := pls m
  if is_casual_message m then (none, ps)
  else
    match step with
    | .use_case =>
      match parse_use_case_from_text m with
      | some use_case =>
        let preset := get_preset use_case
        let ps := setParam ps "_preset" (.vPreset preset)
        let ps := prefillDefaults ps (default_mapping preset)
        let ps := setParam ps "_defaults" (.vList defaultMappingKeys)
        (some (.vStr use_case), ps)
      | none =>
        if use_case_keywords.any (fun kw => containsSub msgLower kw) then
          (some (.vStr "general"), ps)
        else (none, ps)
    | .chain_name =>
      if config_keywords.any (fun kw => containsSub msgLower kw) then (none, ps)
      else
        match extract_chain_name_from_text m with
        | some name =>
          if config_keywords.any (fun kw => containsSub (pyLower name) kw) then
            (none, ps)
          else (some (.vStr name), ps)
        | none =>
          let words := splitWsList msgLower.data
          if words.length = 1 && (3 ≤ m.data.length && m.data.length ≤ 50) then
            (some (.vStr (pyStrip m)), ps)
          else if 3 ≤ m.data.length && m.data.length ≤ 50 then
            let name_parts := words.filter (fun w => !((⟨w⟩ : String) ∈ skip_words))
            if !name_parts.isEmpty then
              (some (.vStr (pyTitle ⟨joinSpace name_parts⟩)), ps)
            else (none, ps)
          else (none, ps)
    | .parent_chain =>
      if containsSub msgLower "sepolia" || containsSub msgLower "test" then
        (some (.vStr "arbitrum-sepolia"), ps)
      else if containsSub msgLower "one" || containsSub msgLower "main"
          || containsSub msgLower "production" then
        (some (.vStr "arbitrum-one"), ps)
      else if containsSub msgLower "nova" then (some (.vStr "arbitrum-nova"), ps)
      else if msgLower ∈ parent_yes then (some (.vStr "arbitrum-sepolia"), ps)
      else (some (.vStr "arbitrum-sepolia"), ps)
    | .data_availability =>
      if rollup_patterns.any (fun p => containsSub msgLower p) then
        (some (.vStr "rollup"), ps)
      else if anytrust_patterns.any (fun p => containsSub msgLower p) then
        (some (.vStr "anytrust"), ps)
      else if msgLower ∈ da_yes then (some (.vStr (presetDA ps)), ps)
      else (none, ps)
    | .validators =>
      match parse_validator_count_from_text m with
      | some count => (some (.vNat count), ps)
      | none => (some (.vNat (presetValidators ps)), ps)
    | .owner_address =>
      if extract_wallet_intent m then
        match wallet with
        | some w =>
          if is_valid_eth_address w then
            match normalize_eth_address w with
            | some v => (some (.vStr v), ps)
            | none => (none, ps)
          else (none, ps)
        | none => (none, ps)
      else
        match findAddress m.data with
        | some run =>
          match normalize_eth_address ⟨run⟩ with
          | some v => (some (.vStr v), ps)
          | none => (none, ps)
        | none => (none, ps)
    | .native_token =>
      if containsSub msgLower "custom" then (some (.vTok "Custom" "TOKEN" 18), ps)
      else (some (.vTok "Ether" "ETH" 18), ps)
    | .block_time =>
      match parse_block_time_from_text m with
      | some t => (some (.vNat t), ps)
      | none => (some (.vNat (presetBlockTime ps)), ps)
    | .gas_limit =>
      match (findNumRuns false m.data).filter
          (fun r => 7 ≤ r.length && r.length ≤ 9) with
      | r :: _ => (some (.vNat (digitsToNat r)), ps)
      | [] =>
        if containsSub msgLower "30" || containsSub msgLower "standard" then
          (some (.vNat 30000000), ps)
        else if containsSub msgLower "50" || containsSub msgLower "high" then
          (some (.vNat 50000000), ps)
        else (some (.vNat (presetGasLimit ps)), ps)
    | .challenge_period =>
      if containsSub msgLower "14" || containsSub msgLower "two week" then
        (some (.vNat 14), ps)
      else (some (.vNat 7), ps)
    | .complete => (none, ps)

def Session.extract_value (s : Session) (m : String) :
    Option Value × List (String × Value) :=
  extract_value_core s.current_step s.params s.wallet_address m

/-- The defaults-list bookkeeping after a successful extraction:
`if step_key in defaults_list: defaults_list.remove(step_key); ...`. -/
def clearDefaultFlag (ps : List (String × Value)) (key : String) :
    List (String × Value) :=
  let dl := getDefaults ps
  if key ∈ dl then setParam ps "_defaults" (.vList (dl.erase key)) else ps

/-- The go-back command list in `process_message`. -/
def goBackCommands : List String := ["go back", "back", "previous", "undo"]

/-- `if wallet_address: session.wallet_address = wallet_address` at the top
of `process_message` (a falsy argument — absent or empty — is ignored). -/
def applyWallet (walletArg : Option String) (s : Session) : Session :=
  match walletArg with
  | some w => if w ≠ "" then { s with wallet_address := some w } else s
  | none => s

/-- `ConversationManager.process_message`.  The external text-generation
collaborator is abstracted by the `aiReply` parameter (its content is not
read by the state machine); message ids and timestamps are not modelled. -/
def process_message (aiReply : String) (walletArg : Option String)
    (s0 : Session) (m : String) : Session :=
  let s1 := applyWallet walletArg s0
  let s2 := { s1 with messages := s1.messages ++ [Msg.mk "user" m] }
  let lowerMsg := pls m
  if lowerMsg ∈ goBackCommands then
    let s3 := (s2.go_back_step).2
    { s3 with messages := s3.messages ++ [Msg.mk "assistant" aiReply] }
  else
    let s4 :=
      match detect_intent_step_core s2.current_step m with
      | some target =>
        let r := extract_value_core target s2.params s2.wallet_address m
        let s' := { s2 with params := r.2 }
        match r.1 with
        | some v =>
          let pw := clearDefaultFlag (setParam s'.params target.value v) target.value
          { s' with params := pw }
        | none => s'
      | none =>
        let r := extract_value_core s2.current_step s2.params s2.wallet_address m
        let s' := { s2 with params := r.2 }
        match r.1 with
        | some v =>
          let pw := clearDefaultFlag (setParam s'.params s2.current_step.value v)
            s2.current_step.value
          let sa := Session.advance_step { s' with params := pw }
          if sa.current_step = ConfigStep.complete then { sa with phase := .review }
          else sa
        | none => s'
    { s4 with messages := s4.messages ++ [Msg.mk "assistant" aiReply] }

/-! ## Orbit configuration record (`models/orbit_config.py`) -/

inductive DataAvailabilityMode where
  | anytrust | rollup
deriving DecidableEq, Repr

/-- The `str`-enum constructor `DataAvailabilityMode(s)`; `ValueError` is
`none`. -/
def DataAvailabilityMode.ofString? : String → Option DataAvailabilityMode
  | "anytrust" => some .anytrust
  | "rollup" => some .rollup
  | _ => none

inductive ParentChain where
  | arbitrum_sepolia | arbitrum_one | arbitrum_nova
deriving DecidableEq, Repr

def ParentChain.ofString? : String → Option ParentChain
  | "arbitrum-sepolia" => some .arbitrum_sepolia
  | "arbitrum-one" => some .arbitrum_one
  | "arbitrum-nova" => some .arbitrum_nova
  | _ => none

structure NativeToken where
  name : String := "Ether"
  symbol : String := "ETH"
  decimals : Nat := 18
deriving DecidableEq, Repr

structure ChainConfig where
  chain_name : String
  native_token : NativeToken
  sequencer_url : Option String := none
  block_time : Nat := 2
  gas_limit : Nat := 30000000
  challenge_period_days : Nat := 7
deriving DecidableEq, Repr

structure OrbitConfig where
  name : String
  chain_id : Nat
  parent_chain : ParentChain
  owner_address : String
  validators : List String
  data_availability : DataAvailabilityMode
  chain_config : ChainConfig
  sequencer_address : Option String := none
  batch_poster_address : Option String := none
  use_case : Option String := none
deriving DecidableEq, Repr

/-- The zero address checked by `validate_config`. -/
def zeroAddr : String := ⟨'0' :: 'x' :: List.replicate 40 '0'⟩

/-- The character class `[^a-zA-Z0-9\s-]` removed by `validate_name`
(complement of what is kept). -/
def keepNameChar (c : Char) : Bool := isAlnumChar c || isWS c || c = '-'

/-- `re.sub(r"\s+", "-", clean)`: replace each maximal whitespace run with a
single hyphen. -/
def collapseWsGo : Nat → List Char → List Char
  | 0, _ => []
  | fuel + 1, l =>
    match l with
    | [] => []
    | c :: t =>
      if isWS c then '-' :: collapseWsGo fuel (t.dropWhile isWS)
      else c :: collapseWsGo fuel t

def collapseWs (l : List Char) : List Char := collapseWsGo l.length l

/-- `str.strip("-")`. -/
def stripHyphens (l : List Char) : List Char :=
  ((l.dropWhile (fun c => c = '-')).reverse.dropWhile (fun c => c = '-')).reverse

/-- The `validate_name` pydantic field validator: keep `[a-zA-Z0-9\s-]`,
collapse whitespace runs to `-`, lowercase, strip outer hyphens; an empty
result raises (`none`). -/
def pydanticCleanName (v : String) : Option String :=
  let clean := v.data.filter keepNameChar
  let clean := stripHyphens (pyLowerList (collapseWs clean))
  if clean.isEmpty then none else some ⟨clean⟩

/-- Constructing an `OrbitConfig` through its pydantic field validators:
`chain_id` bounds, `validators` min length, the address-format validators
(which lowercase on success) and `validate_name`; any failure raises, which
`build_from_session` catches and turns into `None`. -/
def mkOrbitConfig (name : String) (chain_id : Nat) (parent_chain : ParentChain)
    (owner_address : String) (validators : List String)
    (data_availability : DataAvailabilityMode) (chain_config : ChainConfig)
    (use_case : Option String) : Option OrbitConfig :=
  if (412000 ≤ chain_id && chain_id ≤ 999999)
      && 1 ≤ validators.length
      && is_valid_eth_address owner_address
      && validators.all is_valid_eth_address then
    (pydanticCleanName name).map (fun nm =>
      { name := nm, chain_id := chain_id, parent_chain := parent_chain,
        owner_address := pyLower owner_address,
        validators := validators.map pyLower,
        data_availability := data_availability, chain_config := chain_config,
        sequencer_address := none, batch_poster_address := none,
        use_case := use_case })
  else none

/-! ## Config builder (`core/config_builder.py`) -/

/-- Decimal digits of `n` (for the generated default chain name). -/
def natToDecAux : Nat → Nat → List Char
  | 0, _ => []
  | fuel + 1, n =>
    if n = 0 then [] else natToDecAux fuel (n / 10) ++ [digitChars.getD (n % 10) '0']

def natToDecChars (n : Nat) : List Char :=
  if n = 0 then ['0'] else natToDecAux n n

/-- `ConfigBuilder.build_from_session`.  The two `generate_chain_id()` calls
(the default chain name and the record's chain id) are modelled by the
parameters `cidName` and `cid`; `generate_chain_id` draws from
`randint(412000, 499999)`.  Paths on which the Python code would raise an
uncaught `TypeError`/`AttributeError` (a collected value of the wrong
runtime type) are modelled as `none`. -/
def build_from_session (s : Session) (cidName cid : Nat) : Option OrbitConfig := do
  let params := s.params
  if params.isEmpty then none
  else
    let use_case ←
      match getParam params "use_case" with
      | some (.vStr u) => some u
      | none => some "general"
      | some _ => none
    let preset := get_preset use_case
    let defaults := preset.defaults
    let chain_name ←
      match getParam params "chain_name" with
      | some (.vStr c) => some c
      | none => some ("orbit-chain-" ++ (⟨natToDecChars cidName⟩ : String))
      | some _ => none
    let parent_chain :=
      match getParam params "parent_chain" with
      | some (.vStr p) => (ParentChain.ofString? p).getD .arbitrum_sepolia
      | none => (ParentChain.ofString? "arbitrum-sepolia").getD .arbitrum_sepolia
      | some _ => .arbitrum_sepolia
    let data_availability :=
      match getParam params "data_availability" with
      | some (.vStr d) => (DataAvailabilityMode.ofString? d).getD .anytrust
      | none => (DataAvailabilityMode.ofString? defaults.data_availability).getD .anytrust
      | some _ => .anytrust
    let validator_count :=
      match getParam params "validators" with
      | some v => v
      | none => Value.vNat defaults.validators
    let validators :=
      match validator_count with
      | .vNat n => generate_validators n
      | .vList l => l
      | _ => generate_validators 3
    let walletOrZero : String :=
      match s.wallet_address with
      | some w => if w = "" then zeroAddr else w
      | none => zeroAddr
    let owner ←
      match getParam params "owner_address" with
      | some (.vStr o) => if o = "" then some walletOrZero else some o
      | none => some walletOrZero
      | some (.vNat n) => if n = 0 then some walletOrZero else none
      | some (.vList l) => if l.isEmpty then some walletOrZero else none
      | some _ => none
    let native_token :=
      match getParam params "native_token" with
      | some (.vTok n sym d) => NativeToken.mk n sym d
      | none => NativeToken.mk "Ether" "ETH" 18
      | some _ => NativeToken.mk "Ether" "ETH" 18
    let block_time ←
      match getParam params "block_time" with
      | some (.vNat b) => some b
      | none => some defaults.block_time
      | some _ => none
    let gas_limit ←
      match getParam params "gas_limit" with
      | some (.vNat g) => some g
      | none => some defaults.gas_limit
      | some _ => none
    let challenge_period ←
      match getParam params "challenge_period" with
      | some (.vNat c) => some c
      | none => some defaults.challenge_period_days
      | some _ => none
    let chain_config : ChainConfig :=
      { chain_name := pyTitle (pyReplaceChar '-' ' ' chain_name),
        native_token := native_token,
        sequencer_url := some (generate_sequencer_url chain_name),
        block_time := block_time, gas_limit := gas_limit,
        challenge_period_days := challenge_period }
    mkOrbitConfig (pyReplaceChar ' ' '-' (pyLower chain_name)) cid parent_chain
      owner validators data_availability chain_config (some use_case)

/-- `ConfigBuilder.validate_config`. -/
def validate_config (c : OrbitConfig) : Bool × List String :=
  let errors : List String := []
  let errors := if c.name = "" then errors ++ ["Chain name is required"] else errors
  let errors :=
    if c.owner_address = "" || c.owner_address = zeroAddr then
      errors ++ ["Valid owner address is required"]
    else errors
  let errors :=
    if c.validators.length < 1 then errors ++ ["At least 1 validator is required"]
    else errors
  let errors :=
    if c.chain_config.block_time < 1 || 30 < c.chain_config.block_time then
      errors ++ ["Block time must be between 1-30 seconds"]
    else errors
  let errors :=
    if c.chain_config.gas_limit < 1000000 then errors ++ ["Gas limit too low"]
    else errors
  (errors.isEmpty, errors)

/-- A session positioned at `challenge_period` with the enterprise preset
active (as after answering "enterprise" to the use-case question). -/
def enterpriseChallengeSession : Session :=
  { wallet_address := none, phase := .configuration,
    current_step := .challenge_period, messages := [],
    params := [("_preset", .vPreset enterprisePreset)] }

/-- Helper predicate (not from the source): a keyword string is stable under
`lower().strip()`-normalisation of its host — all of its characters are fixed
by lowercasing, and it is nonempty with non-whitespace first and last
characters, so an occurrence inside a message survives `pls`. -/
def plsStable (kw : String) : Bool :=
  (pyLowerList kw.data == kw.data) && !kw.data.isEmpty
    && (match kw.data.head? with | some c => !isWS c | none => false)
    && (match kw.data.getLast? with | some c => !isWS c | none => false)

/-! ## Helper lemmas -/

theorem containsSubList_infix_iff (h n : List Char) :
    containsSubList h n = true ↔ n <:+: h := by
  induction h with
  | nil =>
    simp only [containsSubList, Bool.or_false]
    rw [List.isPrefixOf_iff_prefix]
    constructor
    · intro hp
      exact hp.isInfix
    · intro hi
      have := List.eq_nil_of_infix_nil hi
      simp [this]
  | cons c t ih =>
    simp only [containsSubList, Bool.or_eq_true]
    rw [List.isPrefixOf_iff_prefix, List.infix_cons_iff, ih]

theorem containsSub_infix_iff (h n : String) :
    containsSub h n = true ↔ n.data <:+: h.data := by
  simp only [containsSub]
  exact containsSubList_infix_iff h.data n.data

theorem infix_dropWhile_of_head {n h : List Char} {p : Char → Bool} {c : Char}
    (hi : n <:+: h) (hh : n.head? = some c) (hc : p c = false) :
    n <:+: h.dropWhile p := by
  obtain ⟨pre, suf, rfl⟩ := hi
  induction pre with
  | nil =>
    cases n with
    | nil => simp at hh
    | cons a t =>
      simp only [List.head?_cons, Option.some.injEq] at hh
      subst hh
      simp only [List.nil_append, List.cons_append, List.dropWhile_cons, hc,
        Bool.false_eq_true, if_false]
      exact ⟨[], suf, rfl⟩
  | cons x pre' ih =>
    simp only [List.cons_append, List.dropWhile_cons]
    split
    · exact ih
    · exact ⟨x :: pre', suf, rfl⟩

theorem infix_pyStripList {n h : List Char} (hi : n <:+: h)
    (hne : n ≠ [])
    (hh : (match n.head? with | some c => !isWS c | none => false) = true)
    (hl : (match n.getLast? with | some c => !isWS c | none => false) = true) :
    n <:+: pyStripList h := by
  obtain ⟨c, hc⟩ : ∃ c, n.head? = some c := by
    cases n with
    | nil => exact absurd rfl hne
    | cons a t => exact ⟨a, rfl⟩
  obtain ⟨d, hd⟩ : ∃ d, n.getLast? = some d := by
    cases n with
    | nil => exact absurd rfl hne
    | cons a t => exact ⟨(a :: t).getLast (by simp), List.getLast?_eq_getLast _ _⟩
  rw [hc] at hh
  rw [hd] at hl
  simp only [Bool.not_eq_true'] at hh hl
  have s1 : n <:+: h.dropWhile isWS := infix_dropWhile_of_head hi hc hh
  have s2 : n.reverse <:+: (h.dropWhile isWS).reverse := List.reverse_infix.mpr s1
  have hrh : n.reverse.head? = some d := by
    rw [List.head?_reverse]
    exact hd
  have s3 : n.reverse <:+: ((h.dropWhile isWS).reverse.dropWhile isWS) :=
    infix_dropWhile_of_head s2 hrh hl
  have s4 := List.reverse_infix.mpr s3
  rw [List.reverse_reverse] at s4
  exact s4

/-- An occurrence of a `plsStable` keyword in a message survives
`message.lower().strip()`. -/
theorem containsSub_pls_of_containsSub {m kw : String} (hst : plsStable kw = true)
    (hc : containsSub m kw = true) : containsSub (pls m) kw = true := by
  simp only [plsStable, Bool.and_eq_true, beq_iff_eq, Bool.not_eq_true'] at hst
  obtain ⟨⟨⟨hfix, hne'⟩, hh⟩, hl⟩ := hst
  have hne : kw.data ≠ [] := by
    intro hcon
    rw [hcon] at hne'
    simp at hne'
  rw [containsSub_infix_iff] at hc ⊢
  have hmap : kw.data <:+: (pyLower m).data := by
    have := hc.map lowerChar
    rw [show kw.data.map lowerChar = kw.data from hfix] at this
    exact this
  simp only [pls, pyStrip]
  exact infix_pyStripList hmap hne (by simp [hh]) (by simp [hl])

/-- A needle containing a character absent from the hay is not a substring. -/
theorem not_containsSub_of_missing_char {h n : String} {x : Char}
    (hx : x ∈ n.data) (hh : x ∉ h.data) : containsSub h n = false := by
  by_contra hcon
  simp only [Bool.not_eq_false] at hcon
  rw [containsSub_infix_iff] at hcon
  exact hh (hcon.subset hx)

theorem getParam_setParam_self (ps : List (String × Value)) (k : String) (v : Value) :
    getParam (setParam ps k v) k = some v := by
  induction ps with
  | nil => simp [setParam, getParam]
  | cons kv t ih =>
    obtain ⟨k', v'⟩ := kv
    by_cases h : k' = k
    · simp [setParam, h, getParam]
    · simp only [setParam, if_neg h, getParam]
      exact ih

theorem getParam_setParam_ne (ps : List (String × Value)) (k k' : String) (v : Value)
    (hne : k' ≠ k) : getParam (setParam ps k v) k' = getParam ps k' := by
  have hkk : k ≠ k' := fun h => hne h.symm
  induction ps with
  | nil => simp [setParam, getParam, hkk]
  | cons kv t ih =>
    obtain ⟨a, b⟩ := kv
    by_cases h : a = k
    · subst h
      simp [setParam, getParam, hkk]
    · simp only [setParam, if_neg h, getParam]
      by_cases h2 : a = k'
      · simp [h2]
      · rw [if_neg h2, if_neg h2]
        exact ih

theorem getDefaults_setParam_ne (ps : List (String × Value)) (k : String) (v : Value)
    (hne : k ≠ "_defaults") : getDefaults (setParam ps k v) = getDefaults ps := by
  simp only [getDefaults]
  rw [getParam_setParam_ne ps k "_defaults" v (by simpa using fun h => hne h.symm)]

theorem getDefaults_clearDefaultFlag (ps : List (String × Value)) (key : String) :
    getDefaults (clearDefaultFlag ps key) = (getDefaults ps).erase key := by
  simp only [clearDefaultFlag]
  split
  · simp only [getDefaults, getParam_setParam_self]
  · rename_i hnot
    rw [List.erase_of_not_mem hnot]

theorem getParam_clearDefaultFlag_ne (ps : List (String × Value)) (key k : String)
    (hne : k ≠ "_defaults") : getParam (clearDefaultFlag ps key) k = getParam ps k := by
  simp only [clearDefaultFlag]
  split
  · exact getParam_setParam_ne ps "_defaults" k _ hne
  · rfl

theorem applyWallet_params (w : Option String) (s : Session) :
    (applyWallet w s).params = s.params := by
  cases w with
  | none => rfl
  | some wa =>
    simp only [applyWallet]
    split <;> rfl

theorem applyWallet_current_step (w : Option String) (s : Session) :
    (applyWallet w s).current_step = s.current_step := by
  cases w with
  | none => rfl
  | some wa =>
    simp only [applyWallet]
    split <;> rfl

theorem applyWallet_messages (w : Option String) (s : Session) :
    (applyWallet w s).messages = s.messages := by
  cases w with
  | none => rfl
  | some wa =>
    simp only [applyWallet]
    split <;> rfl

theorem applyWallet_phase (w : Option String) (s : Session) :
    (applyWallet w s).phase = s.phase := by
  cases w with
  | none => rfl
  | some wa =>
    simp only [applyWallet]
    split <;> rfl

theorem advance_step_params (X : Session) : (X.advance_step).params = X.params := by
  simp only [Session.advance_step]
  split <;> rfl

theorem advance_step_current_step (X : Session) :
    (X.advance_step).current_step =
      (if CONFIG_STEP_ORDER.indexOf X.current_step < CONFIG_STEP_ORDER.length - 1
       then CONFIG_STEP_ORDER.getD (CONFIG_STEP_ORDER.indexOf X.current_step + 1)
              ConfigStep.complete
       else X.current_step) := by
  simp only [Session.advance_step]
  split <;> simp_all

theorem clearDefaultFlag_of_not_mem (ps : List (String × Value)) (key : String)
    (h : key ∉ getDefaults ps) : clearDefaultFlag ps key = ps := by
  simp [clearDefaultFlag, h]

/-- Every branch of `_extract_value` other than `USE_CASE` leaves the
collected params untouched. -/
theorem extract_params_eq (st : ConfigStep) (ps : List (String × Value))
    (wa : Option String) (m : String) (hne : st ≠ ConfigStep.use_case) :
    (extract_value_core st ps wa m).2 = ps := by
  cases st <;> try (exact absurd rfl hne)
  all_goals
    simp only [extract_value_core]
    repeat (first | rfl | split)

/-- `process_message` when no command fires, no cross-slot intent is
detected, and extraction for the current slot succeeds: the value is written
at the current slot's key, the slot's default flag is cleared, and the
cursor advances. -/
theorem process_message_normal_case (r : String) (w : Option String) (s : Session)
    (m : String) (v : Value) (ps' : List (String × Value))
    (hnotgb : pls m ∉ goBackCommands)
    (hdet : detect_intent_step_core s.current_step m = none)
    (hext : extract_value_core s.current_step (applyWallet w s).params
        (applyWallet w s).wallet_address m = (some v, ps')) :
    (process_message r w s m).params
      = clearDefaultFlag (setParam ps' s.current_step.value v) s.current_step.value ∧
    (process_message r w s m).current_step
      = (if CONFIG_STEP_ORDER.indexOf s.current_step < CONFIG_STEP_ORDER.length - 1
         then CONFIG_STEP_ORDER.getD (CONFIG_STEP_ORDER.indexOf s.current_step + 1)
                ConfigStep.complete
         else s.current_step) := by
  simp only [process_message, if_neg hnotgb, applyWallet_current_step, hdet, hext]
  constructor
  · split
    · rw [advance_step_params]
    · rw [advance_step_params]
  · split
    · show (Session.advance_step _).current_step = _
      rw [advance_step_current_step]
    · rw [advance_step_current_step]

/-- `process_message` when no command fires, cross-slot intent detection
fires for step `t`, and extraction for `t` succeeds: the value is written at
`t`'s key, `t`'s default flag is cleared, and the cursor does not move. -/
theorem process_message_cross_case (r : String) (w : Option String) (s : Session)
    (m : String) (t : ConfigStep) (v : Value) (ps' : List (String × Value))
    (hnotgb : pls m ∉ goBackCommands)
    (hdet : detect_intent_step_core s.current_step m = some t)
    (hext : extract_value_core t (applyWallet w s).params
        (applyWallet w s).wallet_address m = (some v, ps')) :
    (process_message r w s m).params
      = clearDefaultFlag (setParam ps' t.value v) t.value ∧
    (process_message r w s m).current_step = s.current_step := by
  simp only [process_message, if_neg hnotgb, applyWallet_current_step, hdet, hext]
  exact ⟨trivial, trivial⟩

theorem getDefaults_setParam_defaults (ps : List (String × Value)) (l : List String) :
    getDefaults (setParam ps "_defaults" (.vList l)) = l := by
  simp [getDefaults, getParam_setParam_self]

theorem getParam_eq_some_of_mem (dm : List (String × Value)) (k : String) (v : Value)
    (hnd : (dm.map Prod.fst).Nodup) (hmem : (k, v) ∈ dm) : getParam dm k = some v := by
  induction dm with
  | nil => simp at hmem
  | cons kv rest ih =>
    obtain ⟨a, b⟩ := kv
    simp only [List.map_cons, List.nodup_cons] at hnd
    rcases List.mem_cons.mp hmem with heq | hmem'
    · rw [Prod.mk.injEq] at heq
      simp [getParam, heq.1, heq.2]
    · have hk1 : a ≠ k := by
        intro hcon
        have hmm : k ∈ rest.map Prod.fst := by
          have := List.mem_map_of_mem Prod.fst hmem'
          simpa using this
        rw [← hcon] at hmm
        exact hnd.1 hmm
      simp only [getParam, if_neg hk1]
      exact ih hnd.2 hmem'

theorem getParam_prefill_of_notin (ps dm : List (String × Value)) (k : String)
    (hk : ∀ kv ∈ dm, kv.1 ≠ k) :
    getParam (prefillDefaults ps dm) k = getParam ps k := by
  induction dm generalizing ps with
  | nil => rfl
  | cons kv rest ih =>
    have hstep :
        getParam (if (getParam ps kv.1).isNone then setParam ps kv.1 kv.2 else ps) k
          = getParam ps k := by
      split
      · exact getParam_setParam_ne ps kv.1 k kv.2
          (fun h => hk kv (by simp) h.symm)
      · rfl
    simp only [prefillDefaults, List.foldl_cons]
    have := ih (if (getParam ps kv.1).isNone then setParam ps kv.1 kv.2 else ps)
      (fun kv' h => hk kv' (by simp [h]))
    simp only [prefillDefaults] at this
    rw [this, hstep]

theorem getParam_prefill_mem (ps dm : List (String × Value)) (k : String) (v : Value)
    (hnd : (dm.map Prod.fst).Nodup) (hmem : (k, v) ∈ dm) :
    getParam (prefillDefaults ps dm) k =
      (if (getParam ps k).isNone then some v else getParam ps k) := by
  induction dm generalizing ps with
  | nil => simp at hmem
  | cons kv rest ih =>
    simp only [List.map_cons, List.nodup_cons] at hnd
    rcases List.mem_cons.mp hmem with heq | hmem'
    · subst heq
      have hrest : ∀ kv' ∈ rest, kv'.1 ≠ k := by
        intro kv' h' hcon
        have hmm : kv'.1 ∈ rest.map Prod.fst := List.mem_map_of_mem Prod.fst h'
        rw [hcon] at hmm
        exact hnd.1 hmm
      simp only [prefillDefaults, List.foldl_cons]
      have hout := getParam_prefill_of_notin
        (if (getParam ps k).isNone then setParam ps k v else ps) rest k hrest
      simp only [prefillDefaults] at hout
      rw [hout]
      split
      · exact getParam_setParam_self ps k v
      · rfl
    · have hk1 : kv.1 ≠ k := by
        intro hcon
        exact hnd.1 (hcon ▸ List.mem_map_of_mem Prod.fst hmem')
      have hstep :
          getParam (if (getParam ps kv.1).isNone then setParam ps kv.1 kv.2 else ps) k
            = getParam ps k := by
        split
        · exact getParam_setParam_ne ps kv.1 k kv.2 (fun h => hk1 h.symm)
        · rfl
      simp only [prefillDefaults, List.foldl_cons]
      have := ih (if (getParam ps kv.1).isNone then setParam ps kv.1 kv.2 else ps)
        hnd.2 hmem'
      simp only [prefillDefaults] at this
      rw [this, hstep]

theorem getParam_prefill_mem_fst (ps dm : List (String × Value)) (k : String)
    (hnd : (dm.map Prod.fst).Nodup) (hk : k ∈ dm.map Prod.fst) :
    getParam (prefillDefaults ps dm) k =
      (if (getParam ps k).isNone then getParam dm k else getParam ps k) := by
  obtain ⟨kv, hkv, hfst⟩ := List.mem_map.mp hk
  have hmem : (k, kv.2) ∈ dm := by
    rw [← hfst]
    simpa using hkv
  have hv : getParam dm k = some kv.2 := getParam_eq_some_of_mem dm k kv.2 hnd hmem
  rw [hv]
  exact getParam_prefill_mem ps dm k kv.2 hnd hmem

theorem mem_defaultMappingKeys_ne (x : String) (hx : x ∈ defaultMappingKeys) :
    x ≠ "use_case" ∧ x ≠ "_defaults" ∧ x ≠ "_preset"
      ∧ x ≠ "owner_address" ∧ x ≠ "chain_name" := by
  fin_cases hx <;> decide

theorem dropWhile_eq_self_of_all {p : Char → Bool} {l : List Char}
    (h : ∀ c ∈ l, p c = false) : l.dropWhile p = l := by
  cases l with
  | nil => rfl
  | cons c t =>
    rw [List.dropWhile_cons, if_neg]
    simp [h c (by simp)]

theorem pyStripList_eq_self {l : List Char} (h : ∀ c ∈ l, isWS c = false) :
    pyStripList l = l := by
  unfold pyStripList
  rw [dropWhile_eq_self_of_all h, dropWhile_eq_self_of_all (by
    intro c hc
    exact h c (List.mem_reverse.mp hc)), List.reverse_reverse]

theorem pls_eq_pyLower {m : String} (h : ∀ c ∈ (pyLower m).data, isWS c = false) :
    pls m = pyLower m := by
  simp only [pls, pyStrip]
  rw [pyStripList_eq_self h]

/-- Facts about lowercasing a hex-digit character, by enumeration of the 22
characters of the class. -/
theorem hexChar_facts (c : Char) (h : isHexChar c = true) :
    isHexChar (lowerChar c) = true ∧ isWS c = false ∧ isWS (lowerChar c) = false
      ∧ lowerChar c ≠ ' ' ∧ (lowerChar c = '0' → c = '0') := by
  have hmem : c ∈ hexChars := by
    simpa [isHexChar] using h
  fin_cases hmem <;> decide

/-- Shape decomposition of a valid Ethereum address string. -/
theorem valid_addr_shape (m : String) (h : is_valid_eth_address m = true) :
    ∃ rest, m.data = '0' :: 'x' :: rest ∧ rest.length = 40
      ∧ rest.all isHexChar = true := by
  unfold is_valid_eth_address at h
  split at h
  · rename_i rest heq
    simp only [Bool.and_eq_true, decide_eq_true_eq] at h
    exact ⟨rest, heq, h.1, h.2⟩
  · exact absurd h (by simp)

/-- A string that looks like `0x…` (42 characters starting with a digit) is
not classified casual by `_is_casual_message`'s lowered-message checks. -/
theorem isCasualLower_false_of_addr_shape (L : String) (tail : List Char)
    (hL : L.data = '0' :: 'x' :: tail) (hlen : tail.length = 40) :
    isCasualLower L = false := by
  rw [Bool.eq_false_iff]
  intro hc
  simp only [isCasualLower, Bool.or_eq_true, decide_eq_true_eq,
    List.any_eq_true] at hc
  rcases hc with (hmem | hshort) | ⟨g, hg, hpf⟩
  · fin_cases hmem <;> simp_all [whatsUpApos, howsItGoingApos, sq]
  · rw [hL] at hshort
    simp only [List.length_cons, hlen] at hshort
    omega
  · fin_cases hg <;> (rw [hL] at hpf; simp [List.isPrefixOf] at hpf)

theorem mem_dropWhile_of_neg {p : Char → Bool} {l : List Char} {c : Char}
    (hc : c ∈ l) (hp : p c = false) : c ∈ l.dropWhile p := by
  induction l with
  | nil => simp at hc
  | cons a t ih =>
    rw [List.dropWhile_cons]
    split
    · rcases List.mem_cons.mp hc with rfl | hmem
      · rename_i hpa
        rw [hp] at hpa
        exact absurd hpa (by decide)
      · exact ih hmem
    · exact hc

theorem mem_collapseWsGo (fuel : Nat) (l : List Char) (c : Char)
    (hfuel : l.length ≤ fuel) (hc : c ∈ l) (hws : isWS c = false) :
    c ∈ collapseWsGo fuel l := by
  induction fuel generalizing l with
  | zero =>
    rw [Nat.le_zero, List.length_eq_zero] at hfuel
    subst hfuel
    simp at hc
  | succ f ih =>
    cases l with
    | nil => simp at hc
    | cons a t =>
      simp only [collapseWsGo]
      split
      · rename_i hwa
        rcases List.mem_cons.mp hc with rfl | hmem
        · rw [hws] at hwa
          exact absurd hwa (by decide)
        · have hdrop : c ∈ t.dropWhile isWS := mem_dropWhile_of_neg hmem hws
          have hlen : (t.dropWhile isWS).length ≤ f := by
            have := dropWhileLenLe isWS t
            simp only [List.length_cons] at hfuel
            omega
          exact List.mem_cons_of_mem _ (ih _ hlen hdrop)
      · rcases List.mem_cons.mp hc with rfl | hmem
        · exact List.mem_cons_self _ _
        · have hlen : t.length ≤ f := by
            simp only [List.length_cons] at hfuel
            omega
          exact List.mem_cons_of_mem _ (ih _ hlen hmem)

theorem mem_stripHyphens {l : List Char} {c : Char} (hc : c ∈ l)
    (hne : ¬ (c = '-')) : c ∈ stripHyphens l := by
  unfold stripHyphens
  have h1 : c ∈ l.dropWhile (fun c => c = '-') :=
    mem_dropWhile_of_neg hc (by simp [hne])
  have h2 : c ∈ (l.dropWhile (fun c => c = '-')).reverse := List.mem_reverse.mpr h1
  have h3 := @mem_dropWhile_of_neg (fun c => c = '-') _ _ h2 (by simp [hne])
  exact List.mem_reverse.mpr h3

/-- Facts about an alphanumeric character, by enumeration of the 62
characters of the class. -/
theorem alnumChar_facts (c : Char) (h : isAlnumChar c = true) :
    isAlnumChar (lowerChar c) = true ∧ isWS (lowerChar c) = false
      ∧ lowerChar c ≠ ' ' ∧ lowerChar c ≠ '-'
      ∧ keepNameChar (lowerChar c) = true
      ∧ lowerChar (lowerChar c) = lowerChar c := by
  have hmem : c ∈ lowerLetters ++ upperLetters ++ digitChars := by
    simp only [isAlnumChar, isLetterChar, isDigitChar, Bool.or_eq_true] at h
    simp only [List.mem_append]
    rcases h with (h | h) | h
    · left
      left
      simpa using h
    · left
      right
      simpa using h
    · right
      simpa using h
  fin_cases hmem <;> decide

/-- A name string containing an alphanumeric character survives the
`validate_name` cleaning with a nonempty result. -/
theorem pydanticCleanName_some_of_alnum (v : String)
    (h : ∃ c ∈ v.data, isAlnumChar c = true) :
    ∃ nm, pydanticCleanName v = some nm ∧ nm ≠ "" := by
  obtain ⟨c, hc, hca⟩ := h
  obtain ⟨ha1, ha2, _, ha4, ha5, _⟩ := alnumChar_facts c hca
  have hws : isWS c = false := by
    have hmem : c ∈ lowerLetters ++ upperLetters ++ digitChars := by
      simp only [isAlnumChar, isLetterChar, isDigitChar, Bool.or_eq_true] at hca
      simp only [List.mem_append]
      rcases hca with (h | h) | h
      · left
        left
        simpa using h
      · left
        right
        simpa using h
      · right
        simpa using h
    fin_cases hmem <;> decide
  have hkeep : keepNameChar c = true := by
    simp [keepNameChar, hca]
  have h1 : c ∈ v.data.filter keepNameChar := List.mem_filter.mpr ⟨hc, hkeep⟩
  have h2 : c ∈ collapseWs (v.data.filter keepNameChar) :=
    mem_collapseWsGo _ _ _ le_rfl h1 hws
  have h3 : lowerChar c ∈ pyLowerList (collapseWs (v.data.filter keepNameChar)) :=
    List.mem_map_of_mem lowerChar h2
  have h4 : lowerChar c
      ∈ stripHyphens (pyLowerList (collapseWs (v.data.filter keepNameChar))) :=
    mem_stripHyphens h3 ha4
  have hne : ¬ (stripHyphens
      (pyLowerList (collapseWs (v.data.filter keepNameChar)))).isEmpty = true := by
    intro hcon
    rw [List.isEmpty_iff] at hcon
    rw [hcon] at h4
    simp at h4
  refine ⟨⟨stripHyphens (pyLowerList (collapseWs (v.data.filter keepNameChar)))⟩, ?_, ?_⟩
  · unfold pydanticCleanName
    rw [if_neg hne]
  · intro hcon
    have := congrArg String.data hcon
    simp only at this
    rw [this] at h4
    simp at h4

theorem natToHexAux_all_hex (fuel : Nat) :
    ∀ (n : Nat), ∀ c ∈ natToHexAux fuel n, isHexChar c = true := by
  induction fuel with
  | zero =>
    intro n c hc
    simp [natToHexAux] at hc
  | succ f ih =>
    intro n c hc
    simp only [natToHexAux] at hc
    split at hc
    · simp at hc
    · rw [List.mem_append] at hc
      rcases hc with hc | hc
      · exact ih _ c hc
      · simp only [List.mem_singleton] at hc
        subst hc
        have hd : n % 16 < 16 := Nat.mod_lt _ (by norm_num)
        generalize n % 16 = d at hd ⊢
        interval_cases d <;> decide

theorem natToHexChars_ne_nil (n : Nat) (h : 1 ≤ n) : natToHexChars n ≠ [] := by
  unfold natToHexChars
  cases n with
  | zero => omega
  | succ k =>
    simp only [natToHexAux]
    rw [if_neg (by omega)]
    simp

theorem generate_validators_all_valid (n : Nat) :
    ∀ a ∈ generate_validators n, is_valid_eth_address a = true := by
  intro a ha
  simp only [generate_validators, List.mem_map, List.mem_range] at ha
  obtain ⟨i, hi, rfl⟩ := ha
  have hne : natToHexChars (i + 1) ≠ [] := natToHexChars_ne_nil _ (by omega)
  have hlen1 : 1 ≤ (natToHexChars (i + 1)).length := by
    cases hh : natToHexChars (i + 1) with
    | nil => exact absurd hh hne
    | cons x xs => simp
  have hflatlen : 40 ≤ (List.replicate 40 (natToHexChars (i + 1))).flatten.length := by
    rw [List.length_flatten, List.map_replicate, List.sum_replicate]
    simp only [smul_eq_mul]
    omega
  have hflathex : ∀ c ∈ (List.replicate 40 (natToHexChars (i + 1))).flatten,
      isHexChar c = true := by
    intro c hc
    rw [List.mem_flatten] at hc
    obtain ⟨l, hl, hcl⟩ := hc
    rw [List.eq_of_mem_replicate hl] at hcl
    exact natToHexAux_all_hex _ _ c hcl
  unfold is_valid_eth_address
  simp only [List.take_succ_cons]
  simp only [Bool.and_eq_true, decide_eq_true_eq]
  constructor
  · rw [List.length_take]
    omega
  · rw [List.all_eq_true]
    intro c hc
    exact hflathex c (List.mem_of_mem_take hc)

theorem generate_validators_length (n : Nat) : (generate_validators n).length = n := by
  simp [generate_validators]

theorem pyLower_valid_ne_zero (ow : String) (hv : is_valid_eth_address ow = true)
    (hnz : ow ≠ zeroAddr) : pyLower ow ≠ zeroAddr := by
  intro hcon
  apply hnz
  obtain ⟨rest, hmd, hlen, hhex⟩ := valid_addr_shape ow hv
  have hlowdata : (pyLower ow).data = '0' :: 'x' :: rest.map lowerChar := by
    simp only [pyLower, pyLowerList, hmd, List.map_cons]
    rw [show lowerChar '0' = '0' from by decide,
      show lowerChar 'x' = 'x' from by decide]
  have hzdata : zeroAddr.data = '0' :: 'x' :: List.replicate 40 '0' := rfl
  have hdata := congrArg String.data hcon
  rw [hlowdata, hzdata] at hdata
  simp only [List.cons.injEq, true_and] at hdata
  have hall : ∀ b ∈ rest.map lowerChar, b = '0' :=
    (List.eq_replicate_iff.mp hdata).2
  have hrest : rest = List.replicate 40 '0' := by
    rw [List.eq_replicate_iff]
    refine ⟨hlen, ?_⟩
    intro b hb
    have hlb : lowerChar b = '0' := hall _ (List.mem_map_of_mem lowerChar hb)
    have hbx : isHexChar b = true := List.all_eq_true.mp hhex b hb
    exact (hexChar_facts b hbx).2.2.2.2 hlb
  calc ow = ⟨ow.data⟩ := rfl
    _ = ⟨zeroAddr.data⟩ := by rw [hmd, hzdata, hrest]
    _ = zeroAddr := rfl

theorem isEmpty_false_of_getParam (ps : List (String × Value)) (k : String)
    (v : Value) (h : getParam ps k = some v) : ps.isEmpty = false := by
  cases ps with
  | nil => simp [getParam] at h
  | cons a t => simp

/-! ## Claim C10 -/

/-- C10: for every session, `get_progress` splits the ten non-terminal slots
exactly at the cursor — a slot is in `completed` iff its index in the fixed
order is strictly below the cursor's index, otherwise it is in `remaining`
(the cursor's own slot included) — and the percentage is
`floor(100 * |completed| / 10)`. -/
theorem C10_progress_partition (s : Session) :
    (∀ st : ConfigStep, st ≠ ConfigStep.complete →
      (st.value ∈ s.get_progress.completed ↔
        CONFIG_STEP_ORDER.indexOf st < CONFIG_STEP_ORDER.indexOf s.current_step)) ∧
    (∀ st : ConfigStep, st ≠ ConfigStep.complete →
      (st.value ∈ s.get_progress.remaining ↔
        ¬ CONFIG_STEP_ORDER.indexOf st < CONFIG_STEP_ORDER.indexOf s.current_step)) ∧
    s.get_progress.completed.length + s.get_progress.remaining.length = 10 ∧
    s.get_progress.percentage = 100 * s.get_progress.completed.length / 10 := by
  have key : ∀ step : ConfigStep,
      (∀ st : ConfigStep, st ≠ ConfigStep.complete →
        (st.value ∈ (get_progress_core step).completed ↔
          CONFIG_STEP_ORDER.indexOf st < CONFIG_STEP_ORDER.indexOf step)) ∧
      (∀ st : ConfigStep, st ≠ ConfigStep.complete →
        (st.value ∈ (get_progress_core step).remaining ↔
          ¬ CONFIG_STEP_ORDER.indexOf st < CONFIG_STEP_ORDER.indexOf step)) ∧
      (get_progress_core step).completed.length
          + (get_progress_core step).remaining.length = 10 ∧
      (get_progress_core step).percentage
          = 100 * (get_progress_core step).completed.length / 10 := by
    intro step
    cases step <;> decide
  exact key s.current_step

/-- C10 witness: at the `validators` cursor, `chain_name` is completed. -/
theorem C10_progress_partition_witness :
    ConfigStep.chain_name.value ∈ (sessionAt .validators).get_progress.completed :=
  ((C10_progress_partition (sessionAt .validators)).1 .chain_name (by decide)).mpr
    (by decide)

/-! ## Claim C8 -/

/-- C8: processing a message that is exactly "go back", "back", "previous"
or "undo" moves the cursor from index `i > 0` to `i-1` in the fixed order
(no-op at index 0), changes no collected value, and performs no extraction
that turn — only the transcript grows. -/
theorem C8_go_back_command (s : Session) (m r : String) (w : Option String)
    (hm : m ∈ goBackCommands) :
    (process_message r w s m).params = s.params ∧
    (process_message r w s m).current_step =
      (if CONFIG_STEP_ORDER.indexOf s.current_step = 0 then s.current_step
       else CONFIG_STEP_ORDER.getD (CONFIG_STEP_ORDER.indexOf s.current_step - 1)
              ConfigStep.complete) ∧
    (process_message r w s m).messages =
      s.messages ++ [Msg.mk "user" m, Msg.mk "assistant" r] := by
  have hpls : pls m ∈ goBackCommands := by
    fin_cases hm <;> decide
  have hcs := applyWallet_current_step w s
  have hps := applyWallet_params w s
  have hms := applyWallet_messages w s
  simp only [process_message, if_pos hpls, Session.go_back_step]
  rw [hcs, hps, hms]
  by_cases hi : 0 < CONFIG_STEP_ORDER.indexOf s.current_step
  · rw [if_pos hi, if_neg (by omega)]
    exact ⟨rfl, rfl, by simp⟩
  · rw [if_neg hi, if_pos (by omega)]
    exact ⟨rfl, rfl, by simp⟩

/-- C8 witness: "back" at `parent_chain` moves the cursor to `chain_name`. -/
theorem C8_go_back_command_witness :
    (process_message "r" none (sessionAt .parent_chain) "back").current_step
      = ConfigStep.chain_name := by
  have h := C8_go_back_command (sessionAt .parent_chain) "back" "r" none (by decide)
  rw [h.2.1]
  decide

/-! ## Claim C7 -/

/-- C7: for every slot and every message classified casual, processing the
message leaves the cursor, the slot-value map (`collected_params`) and the
phase unchanged; only the transcript is appended to. -/
theorem C7_casual_message_frame (s : Session) (m r : String) (w : Option String)
    (hc : is_casual_message m = true) :
    (process_message r w s m).current_step = s.current_step ∧
    (process_message r w s m).params = s.params ∧
    (process_message r w s m).phase = s.phase ∧
    (process_message r w s m).messages =
      s.messages ++ [Msg.mk "user" m, Msg.mk "assistant" r] := by
  have hnot : pls m ∉ goBackCommands := by
    intro hmem
    have hcl : isCasualLower (pls m) = true := hc
    simp only [goBackCommands, List.mem_cons, List.not_mem_nil, or_false] at hmem
    rcases hmem with h | h | h | h <;> rw [h] at hcl <;> revert hcl <;> decide
  have hdet : ∀ st : ConfigStep, detect_intent_step_core st m = none := by
    intro st
    simp [detect_intent_step_core, hc]
  have hext : ∀ (st : ConfigStep) (ps : List (String × Value)) (wa : Option String),
      extract_value_core st ps wa m = (none, ps) := by
    intro st ps wa
    simp [extract_value_core, hc]
  simp only [process_message, if_neg hnot, hdet, hext]
  refine ⟨?_, ?_, ?_, ?_⟩
  · rw [applyWallet_current_step]
  · rw [applyWallet_params]
  · rw [applyWallet_phase]
  · rw [applyWallet_messages]
    simp

/-- C7 witness: "hello" at the `validators` slot changes nothing but the
transcript. -/
theorem C7_casual_message_frame_witness :
    (process_message "r" none (sessionAt .validators) "hello").current_step
        = ConfigStep.validators ∧
    (process_message "r" none (sessionAt .validators) "hello").params = [] :=
  ⟨(C7_casual_message_frame (sessionAt .validators) "hello" "r" none (by decide)).1,
   (C7_casual_message_frame (sessionAt .validators) "hello" "r" none (by decide)).2.1⟩

/-! ## Claim C2 -/

/-- C2 counterexample: "hi roll up" contains "roll up", yet with the cursor
at `data_availability` extraction returns no value (the message is classified
casual because it starts with "hi "), not `"rollup"` as the claim states. -/
theorem C2_counterexample :
    containsSub "hi roll up" "roll up" = true ∧
    ((sessionAt .data_availability).extract_value "hi roll up").1 = none := by
  decide

/-- C2 (amended): when the current slot is `data_availability`, extraction on
any *non-casual* message containing "roll up" — and more generally any
non-casual message whose lowered form matches a rollup pattern, even if it
also matches an anytrust pattern such as "fast" or the "trust" family —
returns `"rollup"` and not `"anytrust"`; the rollup pattern set is checked
before the anytrust pattern set. -/
theorem C2_rollup_priority_amended (s : Session) (m : String)
    (hstep : s.current_step = ConfigStep.data_availability)
    (hcas : is_casual_message m = false)
    (hroll : containsSub m "roll up" = true ∨
      rollup_patterns.any (fun p => containsSub (pls m) p) = true) :
    (s.extract_value m).1 = some (.vStr "rollup") := by
  have hany : rollup_patterns.any (fun p => containsSub (pls m) p) = true := by
    rcases hroll with h | h
    · have hin := @containsSub_pls_of_containsSub m "roll up" (by decide) h
      simp only [List.any_eq_true]
      exact ⟨"roll up", by decide, hin⟩
    · exact h
  simp only [Session.extract_value, hstep, extract_value_core, hcas,
    Bool.false_eq_true, if_false, hany, if_true]

/-- C2 witness: "fast roll up" matches both pattern families (anytrust lists
"fast") and yields `"rollup"`. -/
theorem C2_rollup_priority_amended_witness :
    ((sessionAt .data_availability).extract_value "fast roll up").1
      = some (.vStr "rollup") :=
  C2_rollup_priority_amended (sessionAt .data_availability) "fast roll up" rfl
    (by decide) (Or.inl (by decide))

/-! ## Claim C4 -/

/-- C4 counterexample: with the cursor at `validators`, the message "5"
yields *no* value (the casual filter rejects messages of length ≤ 2), and
"twenty five" yields the value 5 (the word map matches "five" as a
substring) — the claim states the opposite on both inputs. -/
theorem C4_counterexample :
    ((sessionAt .validators).extract_value "5").1 = none ∧
    ((sessionAt .validators).extract_value "twenty five").1 = some (.vNat 5) := by
  decide

/-- C4 (amended): the parser `parse_validator_count_from_text` maps "5" to 5,
but at the conversation level "5" is filtered as casual (length ≤ 2) and
yields no value; "twenty five" parses to 5 because the word map matches
"five" as a substring; and a non-casual message in which the parser finds
nothing falls back to the active preset's validator default (3 with no
preset) instead of leaving the slot unanswered. -/
theorem C4_validators_amended :
    parse_validator_count_from_text "5" = some 5 ∧
    ((sessionAt .validators).extract_value "5").1 = none ∧
    parse_validator_count_from_text "twenty five" = some 5 ∧
    ((sessionAt .validators).extract_value "twenty five").1 = some (.vNat 5) ∧
    (∀ (s : Session) (m : String), s.current_step = ConfigStep.validators →
      is_casual_message m = false →
      parse_validator_count_from_text m = none →
      (s.extract_value m).1 = some (.vNat (presetValidators s.params))) := by
  refine ⟨by decide, by decide, by decide, by decide, ?_⟩
  intro s m hstep hcas hparse
  simp only [Session.extract_value, hstep, extract_value_core, hcas,
    Bool.false_eq_true, if_false, hparse]

/-- C4 witness: an unmatched non-casual reply at `validators` falls back to
the default of 3. -/
theorem C4_validators_amended_witness :
    ((sessionAt .validators).extract_value "whatever you think").1
      = some (.vNat 3) :=
  C4_validators_amended.2.2.2.2 (sessionAt .validators) "whatever you think" rfl
    (by decide) (by decide)

/-! ## Claim C5 -/

/-- C5 counterexample: with the enterprise preset active (whose
challenge-period default is 14), a message with no recognized number or
keyword yields the constant 7, not the preset's 14. -/
theorem C5_counterexample :
    enterprisePreset.defaults.challenge_period_days = 14 ∧
    (enterpriseChallengeSession.extract_value "a month").1 = some (.vNat 7) := by
  decide

/-- C5 (amended): when the current slot is `challenge_period` and the
non-casual message contains neither "14" nor "two week", extraction returns
the constant 7 regardless of the active preset — it never consults the
preset's challenge-period default (7 for every built-in preset except
enterprise's 14). -/
theorem C5_challenge_period_amended (s : Session) (m : String)
    (hstep : s.current_step = ConfigStep.challenge_period)
    (hcas : is_casual_message m = false)
    (h14 : containsSub (pls m) "14" = false)
    (h2w : containsSub (pls m) "two week" = false) :
    (s.extract_value m).1 = some (.vNat 7) := by
  simp only [Session.extract_value, hstep, extract_value_core, hcas,
    Bool.false_eq_true, if_false, h14, h2w, Bool.or_self]

/-- C5 witness: "a month" with the enterprise preset still yields 7. -/
theorem C5_challenge_period_amended_witness :
    (enterpriseChallengeSession.extract_value "a month").1 = some (.vNat 7) :=
  C5_challenge_period_amended enterpriseChallengeSession "a month" rfl
    (by decide) (by decide) (by decide)

/-! ## Claim C1 -/

/-- C1: for every session whose current slot is `chain_name`, processing a
non-casual message containing "mainnet" writes a value into the
`parent_chain` slot, removes `parent_chain` from the default-provenance list
if present, and leaves the cursor at `chain_name`. -/
theorem C1_cross_slot_mainnet (s : Session) (m r : String) (w : Option String)
    (hstep : s.current_step = ConfigStep.chain_name)
    (hcas : is_casual_message m = false)
    (hmain : containsSub m "mainnet" = true) :
    (getParam (process_message r w s m).params "parent_chain").isSome = true ∧
    (process_message r w s m).current_step = ConfigStep.chain_name ∧
    getDefaults (process_message r w s m).params
      = (getDefaults s.params).erase "parent_chain" := by
  have hplsm : containsSub (pls m) "mainnet" = true :=
    containsSub_pls_of_containsSub (by decide) hmain
  have hnot : pls m ∉ goBackCommands := by
    intro hmem
    simp only [goBackCommands, List.mem_cons, List.not_mem_nil, or_false] at hmem
    rcases hmem with h | h | h | h <;> rw [h] at hplsm <;> revert hplsm <;> decide
  have hdet : detect_intent_step_core ConfigStep.chain_name m
      = some ConfigStep.parent_chain := by
    simp only [detect_intent_step_core, hcas, Bool.false_eq_true, if_false,
      intent_signals]
    rw [List.find?_cons_of_pos]
    · rfl
    · simp only [Bool.and_eq_true, List.any_eq_true]
      exact ⟨by decide, ⟨"mainnet", by decide, hplsm⟩⟩
  have hext : ∀ (ps : List (String × Value)) (wa : Option String),
      ∃ v, extract_value_core ConfigStep.parent_chain ps wa m
        = (some (.vStr v), ps) := by
    intro ps wa
    simp only [extract_value_core, hcas, Bool.false_eq_true, if_false]
    split
    · exact ⟨_, rfl⟩
    · split
      · exact ⟨_, rfl⟩
      · split
        · exact ⟨_, rfl⟩
        · split
          · exact ⟨_, rfl⟩
          · exact ⟨_, rfl⟩
  obtain ⟨v, hv⟩ := hext (applyWallet w s).params (applyWallet w s).wallet_address
  simp only [process_message, if_neg hnot, applyWallet_current_step, hstep, hdet, hv]
  refine ⟨?_, ?_, ?_⟩
  · simp only [ConfigStep.value]
    rw [getParam_clearDefaultFlag_ne _ _ _ (by decide), getParam_setParam_self]
    rfl
  · trivial
  · simp only [ConfigStep.value]
    rw [getDefaults_clearDefaultFlag, getDefaults_setParam_ne _ _ _ (by decide),
      applyWallet_params]

/-- C3 counterexample: answering "gaming" to the use-case question of a
fresh session extracts `use_case = gaming` successfully, yet the remaining
not-already-set `owner_address` slot is *not* populated with any value — the
pre-fill only covers the seven preset-bundle keys, contradicting "populates
every other remaining (not already set) slot". -/
theorem C3_counterexample :
    (extract_value_core .use_case [] none "gaming").1 = some (.vStr "gaming") ∧
    getParam (process_message "r" none (sessionAt .use_case) "gaming").params
      "owner_address" = none := by
  decide

/-- C3 (amended): successfully parsing a use case populates every remaining
(not already set) slot *among the seven preset-bundle keys*
(`data_availability`, `block_time`, `gas_limit`, `validators`,
`challenge_period`, `native_token`, `parent_chain`) with the matched
preset's default values — `chain_name` and `owner_address` are never
pre-filled — records all seven bundle keys in the default-provenance list
(including any already set), and leaves already-set bundle slots unchanged;
a subsequent explicit extraction for one of those slots (current-slot or
cross-slot) removes exactly that slot from the default-provenance list,
leaving every other slot's marking unchanged. -/
theorem C3_default_propagation_amended (s : Session) (m r : String)
    (w : Option String) (u : String)
    (hstep : s.current_step = ConfigStep.use_case)
    (hcas : is_casual_message m = false)
    (hnotgb : pls m ∉ goBackCommands)
    (hdet : detect_intent_step_core ConfigStep.use_case m = none)
    (hparse : parse_use_case_from_text m = some u) :
    ((process_message r w s m).current_step = ConfigStep.chain_name ∧
     getParam (process_message r w s m).params "use_case" = some (.vStr u) ∧
     getDefaults (process_message r w s m).params = defaultMappingKeys ∧
     (∀ kv ∈ default_mapping (get_preset u),
        getParam s.params kv.1 = none →
          getParam (process_message r w s m).params kv.1 = some kv.2) ∧
     (∀ kv ∈ default_mapping (get_preset u),
        (getParam s.params kv.1).isSome = true →
          getParam (process_message r w s m).params kv.1 = getParam s.params kv.1) ∧
     getParam (process_message r w s m).params "owner_address"
        = getParam s.params "owner_address" ∧
     getParam (process_message r w s m).params "chain_name"
        = getParam s.params "chain_name") ∧
    (∀ (s₂ : Session) (m₂ r₂ : String) (t : ConfigStep) (v : Value),
      getDefaults s₂.params = defaultMappingKeys →
      t.value ∈ defaultMappingKeys →
      pls m₂ ∉ goBackCommands →
      (detect_intent_step_core s₂.current_step m₂ = some t ∨
        (detect_intent_step_core s₂.current_step m₂ = none ∧ s₂.current_step = t)) →
      (extract_value_core t s₂.params s₂.wallet_address m₂).1 = some v →
      (getDefaults (process_message r₂ none s₂ m₂).params
          = defaultMappingKeys.erase t.value ∧
       t.value ∉ getDefaults (process_message r₂ none s₂ m₂).params ∧
       ∀ k ∈ defaultMappingKeys, k ≠ t.value →
         k ∈ getDefaults (process_message r₂ none s₂ m₂).params)) := by
  constructor
  · have hdet' : detect_intent_step_core s.current_step m = none := by
      rw [hstep]
      exact hdet
    have hextA : extract_value_core s.current_step (applyWallet w s).params
        (applyWallet w s).wallet_address m
        = (some (.vStr u),
           setParam
             (prefillDefaults
               (setParam (applyWallet w s).params "_preset" (.vPreset (get_preset u)))
               (default_mapping (get_preset u)))
             "_defaults" (.vList defaultMappingKeys)) := by
      rw [hstep]
      simp only [extract_value_core, hcas, Bool.false_eq_true, if_false, hparse]
    have hmain := process_message_normal_case r w s m _ _ hnotgb hdet' hextA
    have hA1 : (process_message r w s m).current_step = ConfigStep.chain_name := by
      have h2 := hmain.2
      rw [hstep] at h2
      rw [h2]
      decide
    have hparamsEq : (process_message r w s m).params
        = setParam
            (setParam
              (prefillDefaults
                (setParam (applyWallet w s).params "_preset" (.vPreset (get_preset u)))
                (default_mapping (get_preset u)))
              "_defaults" (.vList defaultMappingKeys))
            "use_case" (.vStr u) := by
      have h1 := hmain.1
      rw [hstep] at h1
      simp only [ConfigStep.value] at h1
      rw [h1]
      exact clearDefaultFlag_of_not_mem _ _ (by
        rw [getDefaults_setParam_ne _ _ _ (by decide), getDefaults_setParam_defaults]
        decide)
    have hmapfst : (default_mapping (get_preset u)).map Prod.fst
        = defaultMappingKeys := rfl
    have hkeyfacts : ∀ x ∈ (default_mapping (get_preset u)).map Prod.fst,
        x ≠ "use_case" ∧ x ≠ "_defaults" ∧ x ≠ "_preset" := by
      rw [hmapfst]
      intro x hx
      obtain ⟨h1, h2, h3, _, _⟩ := mem_defaultMappingKeys_ne x hx
      exact ⟨h1, h2, h3⟩
    have hnd : ((default_mapping (get_preset u)).map Prod.fst).Nodup := by
      rw [hmapfst]
      decide
    have howner : ∀ kv ∈ default_mapping (get_preset u), kv.1 ≠ "owner_address" := by
      intro kv hkv
      have hx := List.mem_map_of_mem Prod.fst hkv
      rw [hmapfst] at hx
      exact (mem_defaultMappingKeys_ne kv.1 hx).2.2.2.1
    have hcname : ∀ kv ∈ default_mapping (get_preset u), kv.1 ≠ "chain_name" := by
      intro kv hkv
      have hx := List.mem_map_of_mem Prod.fst hkv
      rw [hmapfst] at hx
      exact (mem_defaultMappingKeys_ne kv.1 hx).2.2.2.2
    refine ⟨hA1, ?_, ?_, ?_, ?_, ?_, ?_⟩
    · rw [hparamsEq, getParam_setParam_self]
    · rw [hparamsEq, getDefaults_setParam_ne _ _ _ (by decide),
        getDefaults_setParam_defaults]
    · intro kv hkv hnone
      have hk1 : kv.1 ∈ (default_mapping (get_preset u)).map Prod.fst :=
        List.mem_map_of_mem Prod.fst hkv
      obtain ⟨hne1, hne2, hne3⟩ := hkeyfacts kv.1 hk1
      rw [hparamsEq, getParam_setParam_ne _ _ _ _ hne1,
        getParam_setParam_ne _ _ _ _ hne2,
        getParam_prefill_mem_fst _ _ _ hnd hk1,
        getParam_setParam_ne _ _ _ _ hne3, applyWallet_params, hnone]
      simp only [Option.isNone_none, if_true]
      exact getParam_eq_some_of_mem _ _ _ hnd (by simpa using hkv)
    · intro kv hkv hsome
      have hk1 : kv.1 ∈ (default_mapping (get_preset u)).map Prod.fst :=
        List.mem_map_of_mem Prod.fst hkv
      obtain ⟨hne1, hne2, hne3⟩ := hkeyfacts kv.1 hk1
      rw [hparamsEq, getParam_setParam_ne _ _ _ _ hne1,
        getParam_setParam_ne _ _ _ _ hne2,
        getParam_prefill_mem_fst _ _ _ hnd hk1,
        getParam_setParam_ne _ _ _ _ hne3, applyWallet_params]
      have hnn : ¬ ((getParam s.params kv.1).isNone = true) := by
        rw [Option.isNone_iff_eq_none]
        intro hcon
        rw [hcon] at hsome
        simp at hsome
      rw [if_neg hnn]
    · rw [hparamsEq, getParam_setParam_ne _ _ _ _ (by decide),
        getParam_setParam_ne _ _ _ _ (by decide),
        getParam_prefill_of_notin _ _ _ howner,
        getParam_setParam_ne _ _ _ _ (by decide), applyWallet_params]
    · rw [hparamsEq, getParam_setParam_ne _ _ _ _ (by decide),
        getParam_setParam_ne _ _ _ _ (by decide),
        getParam_prefill_of_notin _ _ _ hcname,
        getParam_setParam_ne _ _ _ _ (by decide), applyWallet_params]
  · intro s₂ m₂ r₂ t v hdef ht hnotgb₂ hwhich hval
    have htne : t ≠ ConfigStep.use_case := by
      cases t <;> first | exact absurd ht (by decide) | decide
    have hvne : t.value ≠ "_defaults" := by
      cases t <;> decide
    have hpe : (extract_value_core t s₂.params s₂.wallet_address m₂).2 = s₂.params :=
      extract_params_eq t _ _ _ htne
    have hext2 : extract_value_core t s₂.params s₂.wallet_address m₂
        = (some v, s₂.params) := by
      exact Prod.ext hval hpe
    have hnodup : defaultMappingKeys.Nodup := by decide
    rcases hwhich with hdet2 | ⟨hdet2, hteq⟩
    · have hlem := process_message_cross_case r₂ none s₂ m₂ t v s₂.params
        hnotgb₂ hdet2 hext2
      rw [hlem.1, getDefaults_clearDefaultFlag,
        getDefaults_setParam_ne _ _ _ hvne, hdef]
      refine ⟨rfl, hnodup.not_mem_erase, ?_⟩
      intro k hk hkne
      exact (List.mem_erase_of_ne hkne).mpr hk
    · have hext2' : extract_value_core s₂.current_step s₂.params s₂.wallet_address m₂
          = (some v, s₂.params) := by
        rw [hteq]
        exact hext2
      have hlem := process_message_normal_case r₂ none s₂ m₂ v s₂.params
        hnotgb₂ hdet2 hext2'
      rw [hlem.1, hteq, getDefaults_clearDefaultFlag,
        getDefaults_setParam_ne _ _ _ hvne, hdef]
      refine ⟨rfl, hnodup.not_mem_erase, ?_⟩
      intro k hk hkne
      exact (List.mem_erase_of_ne hkne).mpr hk

/-- C3 witness: answering "gaming" on a fresh session pre-fills `validators`
with the gaming preset default and flags all seven bundle keys. -/
theorem C3_default_propagation_amended_witness :
    getParam (process_message "r" none (sessionAt .use_case) "gaming").params
        "validators" = some (.vNat 3) ∧
    getDefaults (process_message "r" none (sessionAt .use_case) "gaming").params
        = defaultMappingKeys :=
  ⟨((C3_default_propagation_amended (sessionAt .use_case) "gaming" "r" none "gaming"
      rfl (by decide) (by decide) (by decide) (by decide)).1.2.2.2.1
      ("validators", .vNat 3) (by decide) rfl),
   (C3_default_propagation_amended (sessionAt .use_case) "gaming" "r" none "gaming"
      rfl (by decide) (by decide) (by decide) (by decide)).1.2.2.1⟩

/-- C6 counterexample: the message "0x" followed by 41 'a's fails the exact
42-character pattern and expresses no wallet intent, yet `owner_address`
extraction returns a value — `re.search` finds the first 42-character
address substring anywhere in the message — refuting "for every message
string failing the pattern ... extraction returns no-value". -/
theorem C6_counterexample :
    is_valid_eth_address ⟨'0' :: 'x' :: List.replicate 41 'a'⟩ = false ∧
    extract_wallet_intent ⟨'0' :: 'x' :: List.replicate 41 'a'⟩ = false ∧
    ((sessionAt .owner_address).extract_value
        ⟨'0' :: 'x' :: List.replicate 41 'a'⟩).1
      = some (.vStr ⟨'0' :: 'x' :: List.replicate 40 'a'⟩) := by
  decide

/-- C6 (amended): a message that is exactly a valid Ethereum-address-shaped
string (`0x` + 40 hex digits) yields that address lowercased and otherwise
unchanged; a message *containing no 0x+40-hex substring* (and not expressing
a use-my-wallet intent with a valid bound wallet) yields no value. -/
theorem C6_owner_address_amended :
    (∀ (s : Session) (m : String), s.current_step = ConfigStep.owner_address →
      is_valid_eth_address m = true →
      (s.extract_value m).1 = some (.vStr (pyLower m))) ∧
    (∀ (s : Session) (m : String), s.current_step = ConfigStep.owner_address →
      findAddress m.data = none →
      ¬ (extract_wallet_intent m = true ∧
          ∃ wa, s.wallet_address = some wa ∧ is_valid_eth_address wa = true) →
      (s.extract_value m).1 = none) := by
  constructor
  · intro s m hstep hvalid
    obtain ⟨rest, hmd, hlen, hhex⟩ := valid_addr_shape m hvalid
    have hhex' : ∀ c ∈ rest, isHexChar c = true := by
      intro c hc
      exact List.all_eq_true.mp hhex c hc
    have hlowdata : (pyLower m).data = '0' :: 'x' :: rest.map lowerChar := by
      simp only [pyLower, pyLowerList, hmd, List.map_cons]
      rw [show lowerChar '0' = '0' from by decide,
        show lowerChar 'x' = 'x' from by decide]
    have hnows : ∀ c ∈ (pyLower m).data, isWS c = false := by
      intro c hc
      rw [hlowdata] at hc
      simp only [List.mem_cons] at hc
      rcases hc with rfl | rfl | hc
      · decide
      · decide
      · obtain ⟨d, hd, rfl⟩ := List.mem_map.mp hc
        exact (hexChar_facts d (hhex' d hd)).2.2.1
    have hplsm : pls m = pyLower m := pls_eq_pyLower hnows
    have hcasF : is_casual_message m = false := by
      unfold is_casual_message
      rw [hplsm]
      exact isCasualLower_false_of_addr_shape (pyLower m) (rest.map lowerChar)
        hlowdata (by simp [hlen])
    have hwiF : extract_wallet_intent m = false := by
      rw [Bool.eq_false_iff]
      intro hwi
      simp only [extract_wallet_intent, List.any_eq_true] at hwi
      obtain ⟨p, hp, hcontains⟩ := hwi
      have hnospace : ' ' ∉ (pyLower m).data := by
        intro hsp
        rw [hlowdata] at hsp
        simp only [List.mem_cons] at hsp
        rcases hsp with h | h | h
        · exact absurd h (by decide)
        · exact absurd h (by decide)
        · obtain ⟨d, hd, hld⟩ := List.mem_map.mp h
          exact (hexChar_facts d (hhex' d hd)).2.2.2.1 hld
      have hx : ' ' ∈ p.data := by
        fin_cases hp <;> decide
      have hfalse := not_containsSub_of_missing_char hx hnospace
      exact absurd (hcontains.symm.trans hfalse) (by decide)
    have htake : rest.take 40 = rest := by
      rw [← hlen]
      exact List.take_length rest
    have hfind : findAddress m.data = some m.data := by
      rw [hmd]
      simp only [findAddress, addrAt, htake]
      rw [if_pos (by simp [hlen, hhex])]
      rfl
    have hnorm : normalize_eth_address ⟨m.data⟩ = some (pyLower m) := by
      have heta : (⟨m.data⟩ : String) = m := rfl
      rw [heta]
      have hne : ¬ (m = "") := by
        intro hcon
        rw [hcon] at hmd
        simp at hmd
      have hpref : (("0x".data).isPrefixOf m.data) = true := by
        rw [hmd]
        simp [List.isPrefixOf]
      unfold normalize_eth_address
      rw [if_neg hne, if_pos hpref, if_pos hvalid]
    simp only [Session.extract_value, hstep, extract_value_core, hcasF,
      Bool.false_eq_true, if_false, hwiF, hfind, hnorm]
  · intro s m hstep hfind hno
    by_cases hcas : is_casual_message m = true
    · simp only [Session.extract_value, hstep, extract_value_core, hcas, if_true]
    · simp only [Bool.not_eq_true] at hcas
      by_cases hwi : extract_wallet_intent m = true
      · simp only [Session.extract_value, hstep, extract_value_core, hcas,
          Bool.false_eq_true, if_false, hwi, if_true]
        cases hw : s.wallet_address with
        | none => rfl
        | some wa =>
          dsimp only
          rw [if_neg]
          intro hv
          exact hno ⟨hwi, wa, hw, hv⟩
      · simp only [Bool.not_eq_true] at hwi
        simp only [Session.extract_value, hstep, extract_value_core, hcas,
          Bool.false_eq_true, if_false, hwi, hfind]

/-- C6 witness: a concrete mixed-case valid address is lowercased, and a
concrete address-free message yields no value. -/
theorem C6_owner_address_amended_witness :
    ((sessionAt .owner_address).extract_value
        "0xABCDEF0123456789abcdef0123456789ABCDEF01").1
      = some (.vStr "0xabcdef0123456789abcdef0123456789abcdef01") ∧
    ((sessionAt .owner_address).extract_value "send it to my cat").1 = none := by
  constructor
  · have h := C6_owner_address_amended.1 (sessionAt .owner_address)
      "0xABCDEF0123456789abcdef0123456789ABCDEF01" rfl (by decide)
    rw [h]
    decide
  · exact C6_owner_address_amended.2 (sessionAt .owner_address) "send it to my cat"
      rfl (by decide) (by
        intro hcon
        obtain ⟨_, wa, hwa, _⟩ := hcon
        simp [sessionAt] at hwa)

/-- C9 counterexample: a fully-populated slot map whose owner address is the
(validly-shaped) zero address builds successfully, but validation reports
`ok = False` — refuting "validating the built record returns ok=True with an
empty error list" for every §3-shaped slot map. -/
theorem C9_counterexample :
    is_valid_eth_address zeroAddr = true ∧
    ((build_from_session
        { wallet_address := none, phase := .review, current_step := .complete,
          messages := [],
          params := [("use_case", .vStr "gaming"), ("chain_name", .vStr "My Chain"),
                     ("parent_chain", .vStr "arbitrum-one"),
                     ("data_availability", .vStr "rollup"),
                     ("validators", .vNat 5),
                     ("owner_address", .vStr zeroAddr),
                     ("native_token", .vTok "Ether" "ETH" 18),
                     ("block_time", .vNat 2), ("gas_limit", .vNat 30000000),
                     ("challenge_period", .vNat 7)] }
        412345 412346).map (fun c => (validate_config c).1)) = some false := by
  decide

/-- Core of the C9 round trip: a `mkOrbitConfig` call with in-range chain
id, nonempty valid validators, a valid non-zero owner and a name containing
an alphanumeric character succeeds and validates cleanly. -/
theorem build_validate_of_facts (nameArg : String) (cid : Nat)
    (pcArg : ParentChain) (ow : String) (V : List String)
    (daArg : DataAvailabilityMode) (cc : ChainConfig) (uc : String)
    (hcid : 412000 ≤ cid ∧ cid ≤ 499999)
    (hVlen : 1 ≤ V.length) (hVval : ∀ a ∈ V, is_valid_eth_address a = true)
    (how : is_valid_eth_address ow = true) (hownz : pyLower ow ≠ zeroAddr)
    (hname : ∃ c ∈ nameArg.data, isAlnumChar c = true)
    (hbt : 1 ≤ cc.block_time ∧ cc.block_time ≤ 30) (hgl : 1000000 ≤ cc.gas_limit) :
    ∃ cfg, mkOrbitConfig nameArg cid pcArg ow V daArg cc (some uc) = some cfg ∧
      validate_config cfg = (true, []) := by
  obtain ⟨nm, hclean, hnm⟩ := pydanticCleanName_some_of_alnum nameArg hname
  have hcond : ((412000 ≤ cid && cid ≤ 999999)
      && 1 ≤ V.length
      && is_valid_eth_address ow
      && V.all is_valid_eth_address) = true := by
    simp only [Bool.and_eq_true, decide_eq_true_eq, List.all_eq_true]
    refine ⟨⟨⟨⟨hcid.1, by omega⟩, hVlen⟩, how⟩, hVval⟩
  have hlowne : pyLower ow ≠ "" := by
    obtain ⟨rest, hmd, _, _⟩ := valid_addr_shape ow how
    intro hcon
    have := congrArg String.data hcon
    simp only [pyLower, pyLowerList, hmd] at this
    simp at this
  refine ⟨{ name := nm, chain_id := cid, parent_chain := pcArg,
            owner_address := pyLower ow, validators := V.map pyLower,
            data_availability := daArg, chain_config := cc,
            sequencer_address := none, batch_poster_address := none,
            use_case := some uc }, ?_, ?_⟩
  · unfold mkOrbitConfig
    rw [if_pos hcond, hclean]
    rfl
  · unfold validate_config
    dsimp only
    rw [if_neg hnm]
    have hgas : ¬ cc.gas_limit < 1000000 := by omega
    have hbt2 : ¬ ((decide (cc.block_time < 1) || decide (30 < cc.block_time)) = true) := by
      simp only [Bool.or_eq_true, decide_eq_true_eq]
      rintro (h | h) <;> omega
    have hvlen2 : ¬ ((List.map pyLower V).length < 1) := by
      rw [List.length_map]; omega
    have hown2 : ¬ ((decide (pyLower ow = "") || decide (pyLower ow = zeroAddr)) = true) := by
      simp only [Bool.or_eq_true, decide_eq_true_eq]
      rintro (h | h)
      · exact hlowne h
      · exact hownz h
    rw [if_neg hgas, if_neg hbt2, if_neg hvlen2, if_neg hown2]
    rfl

/-- C9 (amended): for a fully-populated slot map whose values satisfy the §3
shape and range constraints *and* whose owner address is not the zero
address *and* whose chain name contains an alphanumeric character, building
the Configuration Record succeeds and validating it returns `ok = True` with
an empty error list. -/
theorem C9_round_trip_amended (s : Session) (cidName cid : Nat)
    (uc cn pc da ow tn ts : String) (td : Nat) (vv : Value) (bt gl cp : Nat)
    (hcid : 412000 ≤ cid ∧ cid ≤ 499999)
    (huc : getParam s.params "use_case" = some (.vStr uc))
    (hcn : getParam s.params "chain_name" = some (.vStr cn))
    (hcn_alnum : ∃ c ∈ cn.data, isAlnumChar c = true)
    (hpc : getParam s.params "parent_chain" = some (.vStr pc))
    (hda : getParam s.params "data_availability" = some (.vStr da))
    (hvv : getParam s.params "validators" = some vv)
    (hvshape : (∃ n, vv = .vNat n ∧ 1 ≤ n ∧ n ≤ 20) ∨
        (∃ l, vv = .vList l ∧ 1 ≤ l.length ∧
          ∀ a ∈ l, is_valid_eth_address a = true))
    (how : getParam s.params "owner_address" = some (.vStr ow))
    (how_valid : is_valid_eth_address ow = true)
    (how_nz : ow ≠ zeroAddr)
    (hnt : getParam s.params "native_token" = some (.vTok tn ts td))
    (hbt : getParam s.params "block_time" = some (.vNat bt))
    (hbt_range : 1 ≤ bt ∧ bt ≤ 30)
    (hgl : getParam s.params "gas_limit" = some (.vNat gl))
    (hgl_min : 1000000 ≤ gl)
    (hcp : getParam s.params "challenge_period" = some (.vNat cp)) :
    ∃ cfg, build_from_session s cidName cid = some cfg ∧
      validate_config cfg = (true, []) := by
  have hne : s.params.isEmpty = false := isEmpty_false_of_getParam _ _ _ huc
  have hownz : ¬ (ow = "") := by
    intro hcon
    rw [hcon] at how_valid
    exact absurd how_valid (by decide)
  have hlowz : pyLower ow ≠ zeroAddr := pyLower_valid_ne_zero ow how_valid how_nz
  have hnamew : ∃ c ∈ (pyReplaceChar ' ' '-' (pyLower cn)).data,
      isAlnumChar c = true := by
    obtain ⟨c, hc, hca⟩ := hcn_alnum
    obtain ⟨ha1, _, hsp, _, _, _⟩ := alnumChar_facts c hca
    refine ⟨lowerChar c, ?_, ha1⟩
    simp only [pyReplaceChar, pyLower, pyLowerList]
    refine List.mem_map.mpr ⟨lowerChar c, List.mem_map_of_mem lowerChar hc, ?_⟩
    rw [if_neg hsp]
  rcases hvshape with ⟨n, rfl, hn1, hn20⟩ | ⟨l, rfl, hl1, hlval⟩
  · have hbuild : build_from_session s cidName cid
        = mkOrbitConfig (pyReplaceChar ' ' '-' (pyLower cn)) cid
            ((ParentChain.ofString? pc).getD .arbitrum_sepolia) ow
            (generate_validators n)
            ((DataAvailabilityMode.ofString? da).getD .anytrust)
            { chain_name := pyTitle (pyReplaceChar '-' ' ' cn),
              native_token := { name := tn, symbol := ts, decimals := td },
              sequencer_url := some (generate_sequencer_url cn),
              block_time := bt, gas_limit := gl, challenge_period_days := cp }
            (some uc) := by
      simp only [build_from_session, hne, huc, hcn, hpc, hda, hvv, how, hnt,
        hbt, hgl, hcp, Bool.false_eq_true, if_false, if_neg hownz]
      rfl
    rw [hbuild]
    exact build_validate_of_facts _ cid _ ow _ _ _ uc hcid
      (by rw [generate_validators_length]; omega)
      (generate_validators_all_valid n) how_valid hlowz hnamew
      ⟨hbt_range.1, hbt_range.2⟩ hgl_min
  · have hbuild : build_from_session s cidName cid
        = mkOrbitConfig (pyReplaceChar ' ' '-' (pyLower cn)) cid
            ((ParentChain.ofString? pc).getD .arbitrum_sepolia) ow
            l
            ((DataAvailabilityMode.ofString? da).getD .anytrust)
            { chain_name := pyTitle (pyReplaceChar '-' ' ' cn),
              native_token := { name := tn, symbol := ts, decimals := td },
              sequencer_url := some (generate_sequencer_url cn),
              block_time := bt, gas_limit := gl, challenge_period_days := cp }
            (some uc) := by
      simp only [build_from_session, hne, huc, hcn, hpc, hda, hvv, how, hnt,
        hbt, hgl, hcp, Bool.false_eq_true, if_false, if_neg hownz]
      rfl
    rw [hbuild]
    exact build_validate_of_facts _ cid _ ow _ _ _ uc hcid hl1 hlval
      how_valid hlowz hnamew ⟨hbt_range.1, hbt_range.2⟩ hgl_min

/-- C9 witness: a concrete fully-populated session round-trips to a clean
validation. -/
theorem C9_round_trip_amended_witness :
    ((build_from_session
        { wallet_address := none, phase := .review, current_step := .complete,
          messages := [],
          params := [("use_case", .vStr "gaming"), ("chain_name", .vStr "My Chain"),
                     ("parent_chain", .vStr "arbitrum-one"),
                     ("data_availability", .vStr "rollup"),
                     ("validators", .vNat 5),
                     ("owner_address",
                      .vStr "0xABCDEF0123456789abcdef0123456789ABCDEF01"),
                     ("native_token", .vTok "Ether" "ETH" 18),
                     ("block_time", .vNat 2), ("gas_limit", .vNat 30000000),
                     ("challenge_period", .vNat 7)] }
        412345 412346).map (fun c => (validate_config c).1)) = some true := by
  obtain ⟨cfg, hb, hv⟩ := C9_round_trip_amended
    { wallet_address := none, phase := .review, current_step := .complete,
      messages := [],
      params := [("use_case", .vStr "gaming"), ("chain_name", .vStr "My Chain"),
                 ("parent_chain", .vStr "arbitrum-one"),
                 ("data_availability", .vStr "rollup"),
                 ("validators", .vNat 5),
                 ("owner_address",
                  .vStr "0xABCDEF0123456789abcdef0123456789ABCDEF01"),
                 ("native_token", .vTok "Ether" "ETH" 18),
                 ("block_time", .vNat 2), ("gas_limit", .vNat 30000000),
                 ("challenge_period", .vNat 7)] }
    412345 412346 "gaming" "My Chain"
    "arbitrum-one" "rollup" "0xABCDEF0123456789abcdef0123456789ABCDEF01"
    "Ether" "ETH" 18 (.vNat 5) 2 30000000 7
    (by omega) rfl rfl (by decide) rfl rfl rfl
    (Or.inl ⟨5, rfl, by omega, by omega⟩) rfl (by decide) (by decide)
    rfl rfl (by omega) rfl (by omega) rfl
  rw [hb]
  show some (validate_config cfg).1 = some true
  rw [hv]

/-- C1 witness: "use mainnet please" while being asked for the chain name. -/
theorem C1_cross_slot_mainnet_witness :
    (getParam (process_message "r" none (sessionAt .chain_name) "use mainnet please").params
        "parent_chain").isSome = true ∧
    (process_message "r" none (sessionAt .chain_name) "use mainnet please").current_step
        = ConfigStep.chain_name :=
  ⟨(C1_cross_slot_mainnet (sessionAt .chain_name) "use mainnet please" "r" none rfl
      (by decide) (by decide)).1,
   (C1_cross_slot_mainnet (sessionAt .chain_name) "use mainnet please" "r" none rfl
      (by decide) (by decide)).2.1⟩

end BlockOps
